import Mathlib

/-!
The library pos_sem: POSIX-style semaphores on top of System V semaphores

A shallow embedding of `pos_sem.c` / `pos_sem.h`.  The five library functions
(`sem_init`, `sem_wait`, `sem_trywait`, `sem_post`, `sem_destroy`) are
translated statement by statement as state-passing functions over a `World`
that holds everything the C code reads or writes outside its own locals:
the System V semaphore table of the kernel, `errno`, the wall clock, and the
two output streams.

The kernel calls `semget`, `semctl` and `semop` are not part of the library;
they are modelled here after their documented System V behaviour, restricted
to what the library can issue (one operation per `semop` call).  A call that
finds the semaphore at 0 puts its caller to sleep (`Outcome.suspended`); the
kernel's later resumption of sleepers is the separate transition `settle`.
-/

namespace PosSem

set_option linter.unusedVariables false

/-! ## Constants of the C headers -/

/-- The constant `INT_MAX` of `<limits.h>` for a 32-bit `int`. -/
def INT_MAX : Nat := 2147483647

/-- The macro `SEM_VALUE_MAX`, defined as `INT_MAX` (pos_sem.h, line 27). -/
def SEM_VALUE_MAX : Nat := INT_MAX

/-- Modelled from the spec: the flag `IPC_CREAT` of `<sys/ipc.h>`, a platform
header outside the repository; value on Linux. -/
def IPC_CREAT : Nat := 0o1000

/-- Modelled from the spec: the flag `IPC_EXCL` of `<sys/ipc.h>` (the
"exclusive" of the kernel's create-or-open); value on Linux. -/
def IPC_EXCL : Nat := 0o2000

/-- Modelled from the spec: the flag `IPC_NOWAIT` of `<sys/ipc.h>` (the
"nonblocking" of the kernel's adjust); value on Linux. -/
def IPC_NOWAIT : Nat := 0o4000

/-- Modelled from the spec: the key `IPC_PRIVATE` of `<sys/ipc.h>`. -/
def IPC_PRIVATE : Int := 0

/-- Modelled from the spec: the command `IPC_RMID` of `<sys/ipc.h>` (the
kernel's remove). -/
def IPC_RMID : Nat := 0

/-- Modelled from the spec: the command `SETVAL` of `<sys/sem.h>` (the
kernel's set-count); value on Linux. -/
def SETVAL : Nat := 16

/-- Modelled from the spec: the error numbers of `<errno.h>` the kernel
calls report, with their values on Linux; `ENOENT`. -/
def ENOENT : Int := 2

/-- Modelled from the spec: error number `EINTR` (interrupted call). -/
def EINTR : Int := 4

/-- Modelled from the spec: error number `EAGAIN` (would block). -/
def EAGAIN : Int := 11

/-- Modelled from the spec: error number `ENOMEM`. -/
def ENOMEM : Int := 12

/-- Modelled from the spec: error number `EACCES`. -/
def EACCES : Int := 13

/-- Modelled from the spec: error number `EEXIST` (already exists). -/
def EEXIST : Int := 17

/-- Modelled from the spec: error number `EINVAL` (invalid handle). -/
def EINVAL : Int := 22

/-- Modelled from the spec: error number `EFBIG`. -/
def EFBIG : Int := 27

/-- Modelled from the spec: error number `ENOSPC`. -/
def ENOSPC : Int := 28

/-- Modelled from the spec: error number `ERANGE` (value out of range). -/
def ERANGE : Int := 34

/-- Conversion of an integer to a 32-bit `int` (two's complement wrap-around):
the explicit `(key_t)` cast of `time(NULL)` and the reading of an
`unsigned int` variadic argument as the `int val` of `union semun`. -/
def toInt32 (n : Int) : Int :=
  if n % 4294967296 < 2147483648 then n % 4294967296 else n % 4294967296 - 4294967296

/-- Conversion to `unsigned int` at a call boundary. -/
def toUInt32 (n : Nat) : Nat := n % 4294967296

/-- Test of a flag bit inside a flag word. -/
def hasFlag (flags bit : Nat) : Bool := flags &&& bit != 0

/-! ## The kernel's semaphore table -/

/-- Modelled from the spec: the kernel's counter ("count", a non-negative
integer); the kernel is outside the repository.  One semaphore of a set: its
value, the amounts awaited by the decrement operations sleeping on it
(oldest first), and the number of sleeping wait-for-zero operations. -/
structure Sem where
  semval : Nat
  sleepers : List Nat
  semzcnt : Nat
deriving DecidableEq, Repr

/-- Modelled from the spec: the kernel resource a handle identifies.  A
semaphore set: the key it was created under and its semaphores. -/
structure SemSet where
  key : Int
  sems : List Sem
deriving DecidableEq, Repr

/-- Modelled from the spec: the state of the kernel synchronization service,
which is outside the repository.  The table of sets indexed by identifier (a
removed set leaves an empty slot, identifiers are not handed out twice), the
limits
`SEMMNI` (number of sets) and `SEMVMX` (largest semaphore value), and two
counters of sleeping `semop` calls the kernel completed later: `resumed`
with result 0, `aborted` with result -1. -/
structure Kernel where
  sets : List (Option SemSet)
  semmni : Nat
  semvmx : Nat
  resumed : Nat
  aborted : Nat
deriving DecidableEq, Repr

/-- The kernel calls the library issues, as recorded in the call log. -/
inductive Syscall where
  | semget (key : Int) (nsems : Nat) (semflg : Nat)
  | semctl (semid : Int) (semnum : Int) (cmd : Nat) (arg : Int)
  | semop (semid : Int) (sem_num : Nat) (sem_op : Int) (sem_flg : Nat)
deriving DecidableEq, Repr

/-- Everything outside the library's locals: kernel, `errno`, the clock read
by `time(NULL)`, the failures the kernel will report for reasons outside the
modelled table (one entry per call, `none` for no such failure: `ENOMEM`,
`EINTR`, `EACCES`, a racing removal by another process), the log of kernel
calls, and the lines written to `stderr` and `stdout`. -/
structure World where
  kernel : Kernel
  errno : Int
  clock : Int
  faults : List (Option Int)
  trace : List Syscall
  stderr : List (String × Int)
  stdout : List String
deriving DecidableEq, Repr

/-- Result of a call that may put the caller to sleep. -/
inductive Outcome where
  | ret (r : Int)
  | suspended
deriving DecidableEq, Repr

/-- The set behind an identifier, if the identifier is live. -/
def lookup (k : Kernel) (semid : Int) : Option SemSet :=
  if 0 ≤ semid then
    match k.sets[semid.toNat]? with
    | some (some s) => some s
    | _ => none
  else none

/-- Identifier and set of the first live set created under `key`. -/
def findKey (key : Int) : List (Option SemSet) → Option (Nat × SemSet)
  | [] => none
  | none :: rest => (findKey key rest).map (fun p => (p.1 + 1, p.2))
  | some s :: rest =>
    if s.key = key then some (0, s)
    else (findKey key rest).map (fun p => (p.1 + 1, p.2))

/-- Number of live sets in the table. -/
def liveCount (sets : List (Option SemSet)) : Nat :=
  (sets.filter Option.isSome).length

/-- Number of operations sleeping on the semaphores of a set. -/
def sleeping (s : SemSet) : Nat :=
  (s.sems.map (fun x => x.sleepers.length + x.semzcnt)).sum

/-- Value of semaphore `semnum` of set `semid` (what `GETVAL` reads). -/
def semval (k : Kernel) (semid : Int) (semnum : Nat) : Option Nat :=
  match lookup k semid with
  | some s => (s.sems[semnum]?).map Sem.semval
  | none => none

/-- The outside failure the next kernel call will meet, if any. -/
def World.pending (w : World) : Option Int := w.faults.headD none

/-- Entry of a kernel call: the call is logged and the entry of `faults` that
stood for it is consumed. -/
def World.enter (w : World) (c : Syscall) : World :=
  { w with trace := w.trace ++ [c], faults := w.faults.tail }

/-- A failing kernel call: result -1 and `errno` set. -/
def World.fail (w : World) (e : Int) : Int × World :=
  (-1, { w with errno := e })

/-- Replacement of semaphore `semnum` of set `semid` by `x`. -/
def Kernel.putSem (k : Kernel) (semid : Int) (s : SemSet) (semnum : Nat) (x : Sem) : Kernel :=
  { k with sets := k.sets.set semid.toNat (some { s with sems := s.sems.set semnum x }) }

/-- Modelled from the spec: the creating half of the kernel's create-or-open.
A new set of `nsems` semaphores, all zero, is entered under `key`, unless
`nsems` is 0 (`EINVAL`) or the table is full (`ENOSPC`). -/
def createSet (w : World) (key : Int) (nsems : Nat) : Int × World :=
  if nsems = 0 then w.fail EINVAL
  else if w.kernel.semmni ≤ liveCount w.kernel.sets then w.fail ENOSPC
  else
    ((w.kernel.sets.length : Int),
      { w with kernel := { w.kernel with
          sets := w.kernel.sets ++
            [some { key := key, sems := List.replicate nsems ⟨0, [], 0⟩ }] } })

/-- Modelled from the spec: the kernel's `create_or_open(key, exclusive)`,
which is the System V call `semget(key, nsems, semflg)`, outside the
repository.  A key other than `IPC_PRIVATE` under which a live set exists is
found again: with `IPC_CREAT | IPC_EXCL` the call fails with `EEXIST`,
otherwise it returns the identifier of that set (`EINVAL` if the set has
fewer than `nsems` semaphores).  A key not found is created under
`IPC_CREAT` and reported with `ENOENT` without it. -/
def semget (w : World) (key : Int) (nsems : Nat) (semflg : Nat) : Int × World :=
  match w.pending with
  | some e => (w.enter (.semget key nsems semflg)).fail e
  | none =>
    let w := w.enter (.semget key nsems semflg)
    if key = IPC_PRIVATE then createSet w key nsems
    else
      match findKey key w.kernel.sets with
      | none =>
        if hasFlag semflg IPC_CREAT then createSet w key nsems else w.fail ENOENT
      | some (i, s) =>
        if hasFlag semflg IPC_CREAT && hasFlag semflg IPC_EXCL then w.fail EEXIST
        else if s.sems.length < nsems then w.fail EINVAL
        else ((i : Int), w)

/-- Modelled from the spec: the kernel's `set_count(handle, index, value)` and
`remove(handle)`, which are the System V call
`semctl(semid, semnum, cmd, arg)` with the commands `SETVAL` and `IPC_RMID`,
outside the repository.  `IPC_RMID` removes the set (its sleepers are
completed with -1); `SETVAL` sets one semaphore to `arg`, which must lie in
`0 .. SEMVMX` (`ERANGE` otherwise); an identifier that is not live is
refused with `EINVAL`. -/
def semctl (w : World) (semid : Int) (semnum : Int) (cmd : Nat) (arg : Int) : Int × World :=
  match w.pending with
  | some e => (w.enter (.semctl semid semnum cmd arg)).fail e
  | none =>
    let w := w.enter (.semctl semid semnum cmd arg)
    match lookup w.kernel semid with
    | none => w.fail EINVAL
    | some s =>
      if cmd = IPC_RMID then
        (0, { w with kernel := { w.kernel with
                sets := w.kernel.sets.set semid.toNat none,
                aborted := w.kernel.aborted + sleeping s } })
      else if cmd = SETVAL then
        if semnum < 0 then w.fail EINVAL
        else
          match s.sems[semnum.toNat]? with
          | none => w.fail EINVAL
          | some x =>
            if arg < 0 ∨ (w.kernel.semvmx : Int) < arg then w.fail ERANGE
            else
              (0, { w with kernel :=
                      w.kernel.putSem semid s semnum.toNat ({ x with semval := arg.toNat }) })
      else w.fail EINVAL

/-- The operation record handed to `semop`. -/
structure sembuf where
  sem_num : Nat
  sem_op : Int
  sem_flg : Nat
deriving DecidableEq, Repr

/-- Modelled from the spec: the kernel's
`adjust(handle, index, delta, nonblocking)`, which is the System V call
`semop(semid, &sop, 1)`, outside the repository (its rules are also quoted
in the comment above `sem_wait`, pos_sem.c lines 81-89).  A positive
`sem_op` is added to the value (refused with `ERANGE` beyond `SEMVMX`); a
negative one is subtracted when the value is at least its absolute value,
otherwise the call fails with `EAGAIN` under `IPC_NOWAIT` and puts the
caller to sleep without it; zero waits for the value to be zero. -/
def semop (w : World) (semid : Int) (sop : sembuf) : Outcome × World :=
  match w.pending with
  | some e =>
    (.ret (-1), { w.enter (.semop semid sop.sem_num sop.sem_op sop.sem_flg) with errno := e })
  | none =>
    let w := w.enter (.semop semid sop.sem_num sop.sem_op sop.sem_flg)
    match lookup w.kernel semid with
    | none => (.ret (-1), { w with errno := EINVAL })
    | some s =>
      match s.sems[sop.sem_num]? with
      | none => (.ret (-1), { w with errno := EFBIG })
      | some x =>
        if 0 < sop.sem_op then
          if w.kernel.semvmx < x.semval + sop.sem_op.toNat then
            (.ret (-1), { w with errno := ERANGE })
          else
            let y : Sem := { x with semval := x.semval + sop.sem_op.toNat }
            (.ret 0, { w with kernel := w.kernel.putSem semid s sop.sem_num y })
        else if sop.sem_op < 0 then
          if sop.sem_op.natAbs ≤ x.semval then
            let y : Sem := { x with semval := x.semval - sop.sem_op.natAbs }
            (.ret 0, { w with kernel := w.kernel.putSem semid s sop.sem_num y })
          else if hasFlag sop.sem_flg IPC_NOWAIT then
            (.ret (-1), { w with errno := EAGAIN })
          else
            let y : Sem := { x with sleepers := x.sleepers ++ [sop.sem_op.natAbs] }
            (.suspended, { w with kernel := w.kernel.putSem semid s sop.sem_num y })
        else
          if x.semval = 0 then (.ret 0, w)
          else if hasFlag sop.sem_flg IPC_NOWAIT then
            (.ret (-1), { w with errno := EAGAIN })
          else
            let y : Sem := { x with semzcnt := x.semzcnt + 1 }
            (.suspended, { w with kernel := w.kernel.putSem semid s sop.sem_num y })

/-- Modelled from the spec: the kernel letting suspended waiters proceed.
One pass over the sleeping decrements of a semaphore, oldest first: each one
whose amount is covered by the value is carried out.  Result: the value
left, the operations still asleep, the number carried out. -/
def grant : Nat → List Nat → Nat × List Nat × Nat
  | v, [] => (v, [], 0)
  | v, a :: rest =>
    if a ≤ v then
      let r := grant (v - a) rest
      (r.1, r.2.1, r.2.2 + 1)
    else
      let r := grant v rest
      (r.1, a :: r.2.1, r.2.2)

/-- Modelled from the spec: the kernel resuming the sleepers of semaphore
`semnum` of set `semid` whose condition now holds ("count >= 1 implies some
waiter eventually proceeds"); each resumed `semop` call returns 0. -/
def settle (w : World) (semid : Int) (semnum : Nat) : World :=
  match lookup w.kernel semid with
  | none => w
  | some s =>
    match s.sems[semnum]? with
    | none => w
    | some x =>
      let r := grant x.semval x.sleepers
      let z := if r.1 = 0 then x.semzcnt else 0
      let k := w.kernel.putSem semid s semnum
        ({ semval := r.1, sleepers := r.2.1, semzcnt := x.semzcnt - z })
      { w with kernel := { k with resumed := w.kernel.resumed + r.2.2 + z } }

/-- Modelled from the spec: a sleeping decrement that is interrupted (the
"underlying adjust operation is interrupted").  The oldest sleeper on
semaphore `semnum` of set `semid` is taken off the queue and its `semop`
completes with -1 (`EINTR`). -/
def interrupt (w : World) (semid : Int) (semnum : Nat) : World :=
  match lookup w.kernel semid with
  | none => w
  | some s =>
    match s.sems[semnum]? with
    | none => w
    | some x =>
      match x.sleepers with
      | [] => w
      | _ :: rest =>
        let k := w.kernel.putSem semid s semnum ({ x with sleepers := rest })
        { w with kernel := { k with aborted := w.kernel.aborted + 1 } }

/-! ## The library (pos_sem.c) -/

/-- The call `time(NULL)`: the clock is read. -/
def time (w : World) : Int := w.clock

/-- The helper `exception_handling`, which is
`fprintf(stderr, "%s: %d\n", message, errno)`; the line is kept as the pair
of its two arguments. -/
def exception_handling (w : World) (message : String) : World :=
  { w with stderr := w.stderr ++ [(message, w.errno)] }

/-- A `printf` of a fixed line. -/
def printf (w : World) (line : String) : World :=
  { w with stdout := w.stdout ++ [line] }

/-- The function `sem_init(sem, pshared, value)`.  `sem` is the content of `*sem` at entry;
the result is the return value, the content of `*sem` at exit, and the world
at exit. -/
def sem_init (w : World) (sem : Int) (pshared : Int) (value : Nat) : Int × Int × World :=
  let value := toUInt32 value
  let result : Int := -1
  let key : Int := toInt32 (time w)
  let w := if value > SEM_VALUE_MAX then exception_handling w "Error - value out of bound" else w
  let g := semget w key 1 (IPC_CREAT ||| IPC_EXCL ||| 0o666)
  let sem_get := g.1
  let w := g.2
  if sem_get = -1 ∧ w.errno = EEXIST then
    let g := semget w key 1 0
    let sem_get := g.1
    let w := printf g.2 "Resourse already in use\n"
    if sem_get < 0 then (sem_get, sem, w)
    else (result, sem, w)
  else
    let sem := sem_get
    let c := semctl w sem 0 SETVAL (toInt32 value)
    let result := c.1
    let w := c.2
    if result = -1 then
      (result, sem, exception_handling w "Error - semctl did not end correctly")
    else (result, sem, w)

/-- The function `sem_wait(sem)`; `sem` is the content of `*sem`. -/
def sem_wait (w : World) (sem : Int) : Outcome × World :=
  let semaphore_buffer : sembuf := { sem_num := 0, sem_op := -1, sem_flg := 0 }
  match semop w sem semaphore_buffer with
  | (.ret r, w) => if r = -1 then (.ret (-1), w) else (.ret 0, w)
  | (.suspended, w) => (.suspended, w)

/-- The rest of `sem_wait` (lines 102-108) once a `semop` that put the caller
to sleep has completed with result `r`. -/
def sem_wait_resumed (r : Int) : Int :=
  if r = -1 then -1 else 0

/-- The function `sem_trywait(sem)`. -/
def sem_trywait (w : World) (sem : Int) : Outcome × World :=
  let semaphore_buffer : sembuf := { sem_num := 0, sem_op := -1, sem_flg := IPC_NOWAIT }
  match semop w sem semaphore_buffer with
  | (.ret r, w) => if r = -1 then (.ret (-1), w) else (.ret 0, w)
  | (.suspended, w) => (.suspended, w)

/-- The function `sem_post(sem)`. -/
def sem_post (w : World) (sem : Int) : Outcome × World :=
  let semaphore_buffer : sembuf := { sem_num := 0, sem_op := 1, sem_flg := 0 }
  match semop w sem semaphore_buffer with
  | (.ret r, w) => if r = -1 then (.ret (-1), w) else (.ret 0, w)
  | (.suspended, w) => (.suspended, w)

/-- The function `sem_destroy(sem)`. -/
def sem_destroy (w : World) (sem : Int) : Int × World :=
  let c := semctl w sem 0 IPC_RMID 0
  let result := c.1
  if result = -1 then (result, c.2) else (result, c.2)

/-- The body of `sem_init` with the range check of lines 42-45 taken out and
every other statement kept: what `sem_init` would be if the check were
absent. -/
def sem_init_unchecked (w : World) (sem : Int) (pshared : Int) (value : Nat) :
    Int × Int × World :=
  let value := toUInt32 value
  let result : Int := -1
  let key : Int := toInt32 (time w)
  let g := semget w key 1 (IPC_CREAT ||| IPC_EXCL ||| 0o666)
  let sem_get := g.1
  let w := g.2
  if sem_get = -1 ∧ w.errno = EEXIST then
    let g := semget w key 1 0
    let sem_get := g.1
    let w := printf g.2 "Resourse already in use\n"
    if sem_get < 0 then (sem_get, sem, w)
    else (result, sem, w)
  else
    let sem := sem_get
    let c := semctl w sem 0 SETVAL (toInt32 value)
    let result := c.1
    let w := c.2
    if result = -1 then
      (result, sem, exception_handling w "Error - semctl did not end correctly")
    else (result, sem, w)

/-- Semaphore 0 of the set behind a handle: the one semaphore the library
works on. -/
def sem0 (k : Kernel) (semid : Int) : Option Sem :=
  match lookup k semid with
  | some s => s.sems[0]?
  | none => none

/-- The calls a holder of a handle can issue on it. -/
inductive Call where
  | wait
  | trywait
  | post
  | destroy
deriving DecidableEq, Repr

/-- One call on the handle `sem`. -/
def Call.run (c : Call) (w : World) (sem : Int) : Outcome × World :=
  match c with
  | .wait => sem_wait w sem
  | .trywait => sem_trywait w sem
  | .post => sem_post w sem
  | .destroy => (.ret (sem_destroy w sem).1, (sem_destroy w sem).2)

/-- A sequence of calls on the handle `sem`, one after the other, with the
result of each. -/
def runCalls (w : World) (sem : Int) : List Call → List Outcome × World
  | [] => ([], w)
  | c :: cs =>
    let r := c.run w sem
    let rs := runCalls r.2 sem cs
    (r.1 :: rs.1, rs.2)

/-- A sequence of calls on the handle `sem` in which the kernel, after each
call, resumes the sleepers of semaphore 0 that can go on. -/
def runSettled (w : World) (sem : Int) : List Call → List Outcome × World
  | [] => ([], w)
  | c :: cs =>
    let r := c.run w sem
    let rs := runSettled (settle r.2 sem 0) sem cs
    (r.1 :: rs.1, rs.2)

/-- Number of `sem_wait` calls of a run that returned 0 without sleeping,
given the calls and their results. -/
def grantedAtOnce : List Call → List Outcome → Nat
  | c :: cs, o :: os => (if c = .wait ∧ o = .ret 0 then 1 else 0) + grantedAtOnce cs os
  | _, _ => 0

/-! ### The kernel calls of `sem_init`, named
The three kernel calls `sem_init` can issue, each in the world in which the
code issues it, so that statements can speak of their results. -/

/-- The world after the range check of `sem_init` (lines 42-45). -/
def sem_init_checked (w : World) (value : Nat) : World :=
  if toUInt32 value > SEM_VALUE_MAX then exception_handling w "Error - value out of bound" else w

/-- The key `sem_init` derives from the clock (line 40). -/
def sem_init_key (w : World) : Int := toInt32 (time w)

/-- The exclusive create of `sem_init` (line 47). -/
def createCall (w : World) (value : Nat) : Int × World :=
  semget (sem_init_checked w value) (sem_init_key w) 1 (IPC_CREAT ||| IPC_EXCL ||| 0o666)

/-- The follow-up open of `sem_init` (line 49), issued after `createCall`. -/
def openCall (w : World) (value : Nat) : Int × World :=
  semget (createCall w value).2 (sem_init_key w) 1 0

/-- The set-count call of `sem_init` (line 61), issued after `createCall` on
the handle it returned. -/
def setCall (w : World) (value : Nat) : Int × World :=
  semctl (createCall w value).2 (createCall w value).1 0 SETVAL (toInt32 (toUInt32 value))

/-- An empty kernel with the limits of Linux (`SEMMNI` 32000, `SEMVMX` 32767)
at clock `t`. -/
def boot (t : Int) : World :=
  { kernel := { sets := [], semmni := 32000, semvmx := 32767, resumed := 0, aborted := 0 },
    errno := 0, clock := t, faults := [], trace := [], stderr := [], stdout := [] }

/-- A world in which a set already exists under the key of the clock: the
kernel after a first `sem_init` with value 3 at boot. -/
def attachWorld : World := (sem_init (boot 1700000000) 7 0 3).2.2

/-- A kernel whose `SEMVMX` lies above `INT_MAX`, holding one set whose
semaphore stands at `SEM_VALUE_MAX`. -/
def wideWorld : World :=
  { kernel := { sets := [some { key := 1700000000, sems := [⟨2147483647, [], 0⟩] }],
                semmni := 32000, semvmx := 4294967296, resumed := 0, aborted := 0 },
    errno := 0, clock := 1700000000, faults := [], trace := [], stderr := [], stdout := [] }

/-- A world with one active semaphore of count 0: the kernel after
`sem_init` with value 0 at boot. -/
def zeroWorld : World := (sem_init (boot 1700000000) 7 0 0).2.2

/-- A world with one active semaphore standing at the kernel's maximum: the
kernel after `sem_init` with value 32767 at boot. -/
def fullWorld : World := (sem_init (boot 1700000000) 7 0 32767).2.2

/-- A world with one active semaphore of count 1: the kernel after
`sem_init` with value 1 at boot. -/
def oneWorld : World := (sem_init (boot 1700000000) 7 0 1).2.2

/-! ## Facts about the kernel calls -/

theorem pending_of_no_faults (w : World) (h : w.faults = []) : w.pending = none := by
  simp [World.pending, h]

theorem lookup_neg_one (k : Kernel) : lookup k (-1) = none := by
  simp [lookup]

theorem lookup_append (k : Kernel) (semid : Int) (s : SemSet) (extra : List (Option SemSet))
    (h : lookup k semid = some s) :
    lookup { k with sets := k.sets ++ extra } semid = some s := by
  unfold lookup at h ⊢
  split at h
  · rename_i h0
    simp only [h0, if_true]
    split at h
    · rename_i t hs
      have hlt : semid.toNat < k.sets.length := by
        by_contra hc
        rw [List.getElem?_eq_none (by omega)] at hs
        cases hs
      rw [List.getElem?_append_left hlt, hs]
      simpa using h
    · cases h
  · cases h

/-- A `semget` call never touches a set that is already live. -/
theorem semget_lookup (w : World) (key : Int) (nsems semflg : Nat) (semid : Int) (s : SemSet)
    (h : lookup w.kernel semid = some s) :
    lookup (semget w key nsems semflg).2.kernel semid = some s := by
  have happ := lookup_append w.kernel semid s
    [some { key := key, sems := List.replicate nsems ⟨0, [], 0⟩ }] h
  unfold semget createSet World.fail World.enter
  dsimp only
  repeat' split
  all_goals first
    | exact h
    | exact happ

/-- A `semctl` call returns 0 or -1. -/
theorem semctl_ret (w : World) (semid semnum : Int) (cmd : Nat) (arg : Int) :
    (semctl w semid semnum cmd arg).1 = 0 ∨ (semctl w semid semnum cmd arg).1 = -1 := by
  unfold semctl World.fail World.enter
  dsimp only
  repeat' split
  all_goals simp

/-- A `semctl` call fails on an identifier that is not live. -/
theorem semctl_dead (w : World) (semid semnum : Int) (cmd : Nat) (arg : Int)
    (h : lookup w.kernel semid = none) :
    (semctl w semid semnum cmd arg).1 = -1 := by
  unfold semctl World.fail World.enter
  dsimp only
  split
  · rfl
  · simp only [h]

theorem lookup_putSem_same (k : Kernel) (semid : Int) (s : SemSet) (n : Nat) (y : Sem)
    (h : lookup k semid = some s) :
    lookup (k.putSem semid s n y) semid = some { s with sems := s.sems.set n y } := by
  unfold lookup at h ⊢
  split at h
  · rename_i h0
    simp only [h0, if_true, Kernel.putSem]
    split at h
    · rename_i t hs
      have hlt : semid.toNat < k.sets.length := by
        by_contra hc
        rw [List.getElem?_eq_none (by omega)] at hs
        cases hs
      simp [List.getElem?_set, hlt]
    · cases h
  · cases h

theorem lookup_putSem_other (k : Kernel) (semid other : Int) (s : SemSet) (n : Nat) (y : Sem)
    (h0 : 0 ≤ semid) (hne : other ≠ semid) :
    lookup (k.putSem semid s n y) other = lookup k other := by
  unfold lookup
  split
  · rename_i h1
    have hn : ¬ semid.toNat = other.toNat := by omega
    simp [Kernel.putSem, List.getElem?_set, hn]
  · rfl

theorem lookup_nonneg (k : Kernel) (semid : Int) (s : SemSet) (h : lookup k semid = some s) :
    0 ≤ semid := by
  unfold lookup at h
  split at h
  · assumption
  · cases h

/-- Replacing a semaphore by one of the same value changes no count. -/
theorem semval_putSem_keep (k : Kernel) (sem : Int) (s : SemSet) (n : Nat) (x y : Sem)
    (hs : lookup k sem = some s) (hx : s.sems[n]? = some x) (hy : y.semval = x.semval)
    (semid : Int) (semnum : Nat) :
    semval (k.putSem sem s n y) semid semnum = semval k semid semnum := by
  by_cases hid : semid = sem
  · subst hid
    have hlen : n < s.sems.length := by
      by_contra hc
      rw [List.getElem?_eq_none (by omega)] at hx
      cases hx
    by_cases hn : n = semnum
    · subst hn
      simp [semval, lookup_putSem_same k semid s n y hs, hs, List.getElem?_set, hlen, hx, hy]
    · simp [semval, lookup_putSem_same k semid s n y hs, hs, List.getElem?_set, hn]
  · unfold semval
    rw [lookup_putSem_other k sem semid s n y (lookup_nonneg k sem s hs) hid]

/-- An interrupted sleeper leaves every count as it was. -/
theorem interrupt_semval (w : World) (sem : Int) (n : Nat) (semid : Int) (semnum : Nat) :
    semval (interrupt w sem n).kernel semid semnum = semval w.kernel semid semnum := by
  unfold interrupt
  split
  · rfl
  · rename_i s hs
    split
    · rfl
    · rename_i x hx
      split
      · rfl
      · rename_i a rest hsl
        exact semval_putSem_keep w.kernel sem s n x ({ x with sleepers := rest }) hs hx rfl
          semid semnum

/-- The facts behind a successful `SETVAL`: the argument is in range and the
semaphore holds it afterwards. -/
theorem semctl_setval_ok (w : World) (semid : Int) (arg : Int)
    (h : (semctl w semid 0 SETVAL arg).1 ≠ -1) :
    0 ≤ arg ∧ semval (semctl w semid 0 SETVAL arg).2.kernel semid 0 = some arg.toNat := by
  revert h
  unfold semctl World.fail
  dsimp only
  split
  · simp
  · split
    · simp
    · rename_i s hs
      have hcmd : ¬ SETVAL = IPC_RMID := by decide
      simp only [hcmd, if_false, if_true, lt_self_iff_false, Int.toNat_zero]
      split
      · simp
      · rename_i x hx
        split
        · simp
        · rename_i hr
          intro _
          refine ⟨by omega, ?_⟩
          have hl := lookup_putSem_same (w.enter (.semctl semid 0 SETVAL arg)).kernel
            semid s 0 ({ x with semval := arg.toNat }) hs
          have hlen : 0 < s.sems.length := by
            by_contra hc
            rw [List.getElem?_eq_none (by omega)] at hx
            cases hx
          simp [semval, hl, List.getElem?_set, hlen]

theorem toInt32_toUInt32 (value : Nat) (h : 0 ≤ toInt32 (toUInt32 value)) :
    (toInt32 (toUInt32 value)).toNat = toUInt32 value := by
  unfold toInt32 toUInt32 at *
  split at h <;> split <;> omega

/-- The body of `sem_init` in terms of its three kernel calls. -/
theorem sem_init_eq (w : World) (sem pshared : Int) (value : Nat) :
    sem_init w sem pshared value =
      if (createCall w value).1 = -1 ∧ (createCall w value).2.errno = EEXIST then
        if (openCall w value).1 < 0 then
          ((openCall w value).1, sem, printf (openCall w value).2 "Resourse already in use\n")
        else (-1, sem, printf (openCall w value).2 "Resourse already in use\n")
      else
        if (setCall w value).1 = -1 then
          (-1, (createCall w value).1,
            exception_handling (setCall w value).2 "Error - semctl did not end correctly")
        else ((setCall w value).1, (createCall w value).1, (setCall w value).2) := by
  unfold sem_init
  simp only [createCall, openCall, setCall, sem_init_checked, sem_init_key]
  split <;> split <;> simp_all

/-- Every `semget` call adds itself, and nothing else, to the call log. -/
theorem semget_trace (w : World) (key : Int) (nsems semflg : Nat) :
    (semget w key nsems semflg).2.trace = w.trace ++ [.semget key nsems semflg] := by
  unfold semget createSet World.fail World.enter
  dsimp only
  repeat' split
  all_goals rfl

/-- Every `semctl` call adds itself, and nothing else, to the call log. -/
theorem semctl_trace (w : World) (semid semnum : Int) (cmd : Nat) (arg : Int) :
    (semctl w semid semnum cmd arg).2.trace = w.trace ++ [.semctl semid semnum cmd arg] := by
  unfold semctl World.fail World.enter
  dsimp only
  repeat' split
  all_goals rfl

/-- Every `semop` call adds itself, and nothing else, to the call log. -/
theorem semop_trace (w : World) (semid : Int) (sop : sembuf) :
    (semop w semid sop).2.trace =
      w.trace ++ [.semop semid sop.sem_num sop.sem_op sop.sem_flg] := by
  unfold semop World.enter
  dsimp only
  repeat' split
  all_goals rfl

theorem findKey_lookup (key : Int) (sets : List (Option SemSet)) (i : Nat) (s : SemSet)
    (h : findKey key sets = some (i, s)) : sets[i]? = some (some s) := by
  induction sets generalizing i with
  | nil => simp [findKey] at h
  | cons a rest ih =>
    cases a with
    | none =>
      simp only [findKey, Option.map_eq_some', Prod.mk.injEq] at h
      obtain ⟨p, hp, h1, h2⟩ := h
      subst h1 h2
      simpa using ih p.1 hp
    | some t =>
      simp only [findKey] at h
      split at h
      · simp only [Option.some.injEq, Prod.mk.injEq] at h
        obtain ⟨h1, h2⟩ := h
        subst h1 h2
        simp
      · simp only [Option.map_eq_some', Prod.mk.injEq] at h
        obtain ⟨p, hp, h1, h2⟩ := h
        subst h1 h2
        simpa using ih p.1 hp

/-- A `semop` call returns 0 or -1, or puts the caller to sleep. -/
theorem semop_ret (w : World) (semid : Int) (sop : sembuf) :
    (semop w semid sop).1 = .ret 0 ∨ (semop w semid sop).1 = .ret (-1) ∨
      (semop w semid sop).1 = .suspended := by
  unfold semop
  dsimp only
  repeat' split
  all_goals simp

/-- A failing `semop` leaves the kernel as it was. -/
theorem semop_fail_kernel (w : World) (semid : Int) (sop : sembuf)
    (h : (semop w semid sop).1 = .ret (-1)) : (semop w semid sop).2.kernel = w.kernel := by
  revert h
  unfold semop World.enter
  dsimp only
  repeat' split
  all_goals first
    | (intro _; rfl)
    | (intro h; exact absurd h (by simp))

/-- A `semop` that puts its caller to sleep leaves every count as it was. -/
theorem semop_sleep_semval (w : World) (sem : Int) (sop : sembuf)
    (h : (semop w sem sop).1 = .suspended) (semid : Int) (semnum : Nat) :
    semval (semop w sem sop).2.kernel semid semnum = semval w.kernel semid semnum := by
  revert h
  unfold semop World.enter
  dsimp only
  split
  · intro h; simp at h
  · split
    · intro h; simp at h
    · rename_i s hs
      split
      · intro h; simp at h
      · rename_i x hx
        repeat' split
        all_goals first
          | (intro h; simp at h; done)
          | (intro _
             exact semval_putSem_keep w.kernel sem s sop.sem_num x
               ({ x with sleepers := x.sleepers ++ [sop.sem_op.natAbs] }) hs hx rfl semid semnum)
          | (intro _
             exact semval_putSem_keep w.kernel sem s sop.sem_num x
               ({ x with semzcnt := x.semzcnt + 1 }) hs hx rfl semid semnum)

/-- With `IPC_NOWAIT`, a decrement or an increment never puts the caller to
sleep. -/
theorem semop_nowait (w : World) (semid : Int) (sop : sembuf)
    (h : hasFlag sop.sem_flg IPC_NOWAIT = true ∨ 0 < sop.sem_op) :
    (semop w semid sop).1 ≠ .suspended := by
  unfold semop
  dsimp only
  repeat' split
  all_goals first
    | (rcases h with h | h <;> first | contradiction | omega)
    | simp

/-- On a handle that is not live `semop` fails and changes nothing in the
kernel. -/
theorem semop_dead (w : World) (semid : Int) (sop : sembuf) (h : lookup w.kernel semid = none) :
    (semop w semid sop).1 = .ret (-1) ∧ (semop w semid sop).2.kernel = w.kernel := by
  have hr : (semop w semid sop).1 = .ret (-1) := by
    unfold semop World.enter
    dsimp only
    split
    · rfl
    · simp only [h]
  exact ⟨hr, semop_fail_kernel w semid sop hr⟩

/-- A failing `semctl` leaves the kernel as it was. -/
theorem semctl_fail_kernel (w : World) (semid semnum : Int) (cmd : Nat) (arg : Int)
    (h : (semctl w semid semnum cmd arg).1 = -1) :
    (semctl w semid semnum cmd arg).2.kernel = w.kernel := by
  revert h
  unfold semctl World.fail World.enter
  dsimp only
  repeat' split
  all_goals first
    | (intro _; rfl)
    | (intro h; simp at h)

/-- A successful `IPC_RMID` leaves the identifier without a set. -/
theorem semctl_rmid_ok (w : World) (semid semnum : Int) (arg : Int)
    (h : (semctl w semid semnum IPC_RMID arg).1 = 0) :
    lookup (semctl w semid semnum IPC_RMID arg).2.kernel semid = none := by
  revert h
  unfold semctl World.fail World.enter
  dsimp only
  split
  · intro h; simp at h
  · split
    · intro h; simp at h
    · intro _
      simp only [if_true]
      unfold lookup
      split
      · by_cases hlt : semid.toNat < w.kernel.sets.length
        · simp [List.getElem?_set, hlt]
        · rw [List.getElem?_eq_none (by simp; omega)]
      · rfl

/-- The three `semop` wrappers hand the kernel's result through. -/
theorem sem_wait_eq (w : World) (sem : Int) :
    sem_wait w sem = semop w sem { sem_num := 0, sem_op := -1, sem_flg := 0 } := by
  unfold sem_wait
  rcases semop_ret w sem { sem_num := 0, sem_op := -1, sem_flg := 0 } with h | h | h
  all_goals
    cases hr : semop w sem { sem_num := 0, sem_op := -1, sem_flg := 0 } with
    | mk o w1 =>
      rw [hr] at h
      simp only at h
      subst h
      simp [hr]

theorem sem_trywait_eq (w : World) (sem : Int) :
    sem_trywait w sem = semop w sem { sem_num := 0, sem_op := -1, sem_flg := IPC_NOWAIT } := by
  unfold sem_trywait
  rcases semop_ret w sem { sem_num := 0, sem_op := -1, sem_flg := IPC_NOWAIT } with h | h | h
  all_goals
    cases hr : semop w sem { sem_num := 0, sem_op := -1, sem_flg := IPC_NOWAIT } with
    | mk o w1 =>
      rw [hr] at h
      simp only at h
      subst h
      simp [hr]

theorem sem_post_eq (w : World) (sem : Int) :
    sem_post w sem = semop w sem { sem_num := 0, sem_op := 1, sem_flg := 0 } := by
  unfold sem_post
  rcases semop_ret w sem { sem_num := 0, sem_op := 1, sem_flg := 0 } with h | h | h
  all_goals
    cases hr : semop w sem { sem_num := 0, sem_op := 1, sem_flg := 0 } with
    | mk o w1 =>
      rw [hr] at h
      simp only at h
      subst h
      simp [hr]

/-- The kernel's increment by one of semaphore 0 of a live set: it is carried
out exactly when no outside failure is pending and the value stays within
`SEMVMX`, and then only the value of that semaphore changes. -/
theorem semop_post_spec (w : World) (sem : Int) (s : SemSet) (x : Sem)
    (hs : lookup w.kernel sem = some s) (hx : s.sems[0]? = some x) :
    ((semop w sem { sem_num := 0, sem_op := 1, sem_flg := 0 }).1 = .ret 0 ↔
      (w.pending = none ∧ x.semval + 1 ≤ w.kernel.semvmx)) ∧
    ((semop w sem { sem_num := 0, sem_op := 1, sem_flg := 0 }).1 = .ret 0 →
      (semop w sem { sem_num := 0, sem_op := 1, sem_flg := 0 }).2.kernel =
        w.kernel.putSem sem s 0 { x with semval := x.semval + 1 }) := by
  unfold semop World.enter
  dsimp only
  split
  · rename_i e he
    simp [he]
  · rename_i he
    simp only [hs, hx, he, true_and]
    have h1 : (0 : Int) < 1 := by decide
    have h2 : (1 : Int).toNat = 1 := rfl
    simp only [h1, if_true, h2]
    split
    · rename_i hlt
      simp
      omega
    · rename_i hlt
      simp only [true_iff, forall_const]
      exact ⟨by omega, trivial⟩

/-- The kernel's decrement by one of semaphore 0 of a live set whose value is
at least one, with no outside failure pending: it is carried out at once. -/
theorem semop_dec_spec (w : World) (sem : Int) (s : SemSet) (x : Sem) (flg : Nat)
    (hs : lookup w.kernel sem = some s) (hx : s.sems[0]? = some x)
    (hp : w.pending = none) (hv : 1 ≤ x.semval) :
    (semop w sem { sem_num := 0, sem_op := -1, sem_flg := flg }).1 = .ret 0 ∧
    (semop w sem { sem_num := 0, sem_op := -1, sem_flg := flg }).2.kernel =
      w.kernel.putSem sem s 0 { x with semval := x.semval - 1 } ∧
    (semop w sem { sem_num := 0, sem_op := -1, sem_flg := flg }).2.faults = w.faults.tail := by
  unfold semop World.enter
  dsimp only
  simp only [hp, hs, hx]
  have h1 : ¬ (0 : Int) < -1 := by decide
  have h2 : (-1 : Int) < 0 := by decide
  have h3 : (-1 : Int).natAbs = 1 := rfl
  simp only [h1, h2, if_false, if_true, h3, hv]
  exact ⟨trivial, trivial, trivial⟩

/-- The kernel's decrement by one of a semaphore whose value is zero, under
`IPC_NOWAIT`: it fails at once. -/
theorem semop_dec_zero (w : World) (sem : Int) (s : SemSet) (x : Sem)
    (hs : lookup w.kernel sem = some s) (hx : s.sems[0]? = some x) (hv : x.semval = 0) :
    (semop w sem { sem_num := 0, sem_op := -1, sem_flg := IPC_NOWAIT }).1 = .ret (-1) := by
  unfold semop World.enter
  dsimp only
  split
  · rfl
  · simp only [hs, hx]
    have h1 : ¬ (0 : Int) < -1 := by decide
    have h2 : (-1 : Int) < 0 := by decide
    have h3 : (-1 : Int).natAbs = 1 := rfl
    have h4 : hasFlag IPC_NOWAIT IPC_NOWAIT = true := by decide
    simp [h1, h2, h3, h4, hv]

theorem semval_putSem_same (k : Kernel) (semid : Int) (s : SemSet) (x y : Sem)
    (hs : lookup k semid = some s) (hx : s.sems[0]? = some x) :
    semval (k.putSem semid s 0 y) semid 0 = some y.semval := by
  have hlen : 0 < s.sems.length := by
    by_contra hc
    rw [List.getElem?_eq_none (by omega)] at hx
    cases hx
  simp [semval, lookup_putSem_same k semid s 0 y hs, List.getElem?_set, hlen]

theorem semval_eq_some (k : Kernel) (semid : Int) (n : Nat) (m : Nat)
    (h : semval k semid n = some m) :
    ∃ s x, lookup k semid = some s ∧ s.sems[n]? = some x ∧ x.semval = m := by
  unfold semval at h
  split at h
  · rename_i s hs
    simp only [Option.map_eq_some'] at h
    obtain ⟨x, hx, hm⟩ := h
    exact ⟨s, x, hs, hx, hm⟩
  · cases h

theorem sem0_some (k : Kernel) (sem : Int) (x : Sem) (h : sem0 k sem = some x) :
    ∃ s, lookup k sem = some s ∧ s.sems[0]? = some x := by
  unfold sem0 at h
  split at h
  · rename_i s hs
    exact ⟨s, hs, h⟩
  · cases h

theorem sem0_putSem (k : Kernel) (sem : Int) (s : SemSet) (x y : Sem)
    (hs : lookup k sem = some s) (hx : s.sems[0]? = some x) :
    sem0 (k.putSem sem s 0 y) sem = some y := by
  have hlen : 0 < s.sems.length := by
    by_contra hc
    rw [List.getElem?_eq_none (by omega)] at hx
    cases hx
  simp [sem0, lookup_putSem_same k sem s 0 y hs, List.getElem?_set, hlen]

theorem semval_of_sem0 (k : Kernel) (sem : Int) (x : Sem) (h : sem0 k sem = some x) :
    semval k sem 0 = some x.semval := by
  obtain ⟨s, hs, hx⟩ := sem0_some k sem x h
  simp [semval, hs, hx]

/-- A `sem_post` that does not fail adds one to the count and touches
neither the sleepers nor the counters of the kernel. -/
theorem post_step (w : World) (sem : Int) (x : Sem) (h0 : sem0 w.kernel sem = some x)
    (hok : (sem_post w sem).1 ≠ .ret (-1)) :
    (sem_post w sem).1 = .ret 0 ∧
    sem0 (sem_post w sem).2.kernel sem = some { x with semval := x.semval + 1 } ∧
    (sem_post w sem).2.kernel.resumed = w.kernel.resumed := by
  obtain ⟨s, hs, hx⟩ := sem0_some _ _ _ h0
  rw [sem_post_eq] at hok ⊢
  have hr : (semop w sem { sem_num := 0, sem_op := 1, sem_flg := 0 }).1 = .ret 0 := by
    rcases semop_ret w sem { sem_num := 0, sem_op := 1, sem_flg := 0 } with h | h | h
    · exact h
    · exact absurd h hok
    · exact absurd h (semop_nowait w sem _ (Or.inr (by decide)))
  have hk := (semop_post_spec w sem s x hs hx).2 hr
  refine ⟨hr, ?_, ?_⟩
  · rw [hk]
    exact sem0_putSem _ _ _ _ _ hs hx
  · rw [hk]
    rfl

/-- A `sem_wait` that does not fail takes one unit at once when the count is
at least one, and otherwise puts the caller to sleep for one unit. -/
theorem wait_step (w : World) (sem : Int) (x : Sem) (h0 : sem0 w.kernel sem = some x)
    (hok : (sem_wait w sem).1 ≠ .ret (-1)) :
    (1 ≤ x.semval →
      (sem_wait w sem).1 = .ret 0 ∧
      sem0 (sem_wait w sem).2.kernel sem = some { x with semval := x.semval - 1 } ∧
      (sem_wait w sem).2.kernel.resumed = w.kernel.resumed) ∧
    (x.semval = 0 →
      (sem_wait w sem).1 = .suspended ∧
      sem0 (sem_wait w sem).2.kernel sem = some { x with sleepers := x.sleepers ++ [1] } ∧
      (sem_wait w sem).2.kernel.resumed = w.kernel.resumed) := by
  obtain ⟨s, hs, hx⟩ := sem0_some _ _ _ h0
  rw [sem_wait_eq] at hok ⊢
  have hp : w.pending = none := by
    by_contra hc
    apply hok
    unfold semop
    dsimp only
    split
    · rfl
    · contradiction
  refine ⟨?_, ?_⟩
  · intro hv
    obtain ⟨h1, h2, -⟩ := semop_dec_spec w sem s x 0 hs hx hp hv
    refine ⟨h1, ?_, ?_⟩
    · rw [h2]
      exact sem0_putSem _ _ _ _ _ hs hx
    · rw [h2]
      rfl
  · intro hv
    have h1 : ¬ (0 : Int) < -1 := by decide
    have h2 : (-1 : Int) < 0 := by decide
    have h3 : (-1 : Int).natAbs = 1 := rfl
    have h4 : hasFlag 0 IPC_NOWAIT = false := by decide
    have hres : semop w sem { sem_num := 0, sem_op := -1, sem_flg := 0 } =
        (.suspended, { w.enter (.semop sem 0 (-1) 0) with
          kernel := w.kernel.putSem sem s 0 { x with sleepers := x.sleepers ++ [1] } }) := by
      unfold semop World.enter
      dsimp only
      simp only [hp, hs, hx]
      simp [h1, h2, h3, h4, hv]
    rw [hres]
    exact ⟨rfl, sem0_putSem _ _ _ _ _ hs hx, rfl⟩

/-- What the kernel's resumption of sleepers does to semaphore 0 and to the
counter of resumed calls. -/
theorem settle_spec (w : World) (sem : Int) (x : Sem) (h0 : sem0 w.kernel sem = some x) :
    sem0 (settle w sem 0).kernel sem =
      some { semval := (grant x.semval x.sleepers).1,
             sleepers := (grant x.semval x.sleepers).2.1,
             semzcnt := x.semzcnt -
               (if (grant x.semval x.sleepers).1 = 0 then x.semzcnt else 0) } ∧
    (settle w sem 0).kernel.resumed =
      w.kernel.resumed + (grant x.semval x.sleepers).2.2 +
        (if (grant x.semval x.sleepers).1 = 0 then x.semzcnt else 0) := by
  obtain ⟨s, hs, hx⟩ := sem0_some _ _ _ h0
  unfold settle
  simp only [hs, hx]
  exact ⟨sem0_putSem _ _ _ _ _ hs hx, trivial⟩

theorem grant_zero_ones (m : Nat) : grant 0 (List.replicate m 1) = (0, List.replicate m 1, 0) := by
  induction m with
  | zero => rfl
  | succ m ih => simp [List.replicate_succ, grant, ih]

/-- A `sem_post` that does not fail, followed by the kernel's resumption of
sleepers, on a semaphore whose sleepers each wait for one unit. -/
theorem post_settle (w : World) (sem : Int) (v m : Nat)
    (h0 : sem0 w.kernel sem = some ⟨v, List.replicate m 1, 0⟩) (hvm : v = 0 ∨ m = 0)
    (hok : (sem_post w sem).1 ≠ .ret (-1)) :
    ∃ v1 m1, sem0 (settle (sem_post w sem).2 sem 0).kernel sem
        = some ⟨v1, List.replicate m1 1, 0⟩ ∧
      (v1 = 0 ∨ m1 = 0) ∧ v1 + m = v + m1 + 1 ∧
      (settle (sem_post w sem).2 sem 0).kernel.resumed + m1 = w.kernel.resumed + m ∧
      w.kernel.resumed ≤ (settle (sem_post w sem).2 sem 0).kernel.resumed := by
  obtain ⟨-, hs0, hres⟩ := post_step w sem _ h0 hok
  obtain ⟨hs1, hres1⟩ := settle_spec (sem_post w sem).2 sem _ hs0
  rw [hres] at hres1
  dsimp only at hs1 hres1
  cases m with
  | zero =>
    refine ⟨v + 1, 0, ?_, Or.inr rfl, by omega, ?_, ?_⟩
    · rw [hs1]
      simp [grant]
    · rw [hres1]
      simp [grant]
    · rw [hres1]
      omega
  | succ m' =>
    have hv : v = 0 := by omega
    subst hv
    have had : grant (0 + 1) (List.replicate (m' + 1) 1) = (0, List.replicate m' 1, 1) := by
      simp [List.replicate_succ, grant, grant_zero_ones]
    refine ⟨0, m', ?_, Or.inl rfl, by omega, ?_, ?_⟩
    · rw [hs1, had]
      simp
    · rw [hres1, had]
      simp
      omega
    · rw [hres1]
      omega

/-- A `sem_wait` that does not fail, followed by the kernel's resumption of
sleepers, on a semaphore whose sleepers each wait for one unit. -/
theorem wait_settle (w : World) (sem : Int) (v m : Nat)
    (h0 : sem0 w.kernel sem = some ⟨v, List.replicate m 1, 0⟩) (hvm : v = 0 ∨ m = 0)
    (hok : (sem_wait w sem).1 ≠ .ret (-1)) :
    ∃ v1 m1, sem0 (settle (sem_wait w sem).2 sem 0).kernel sem
        = some ⟨v1, List.replicate m1 1, 0⟩ ∧
      (v1 = 0 ∨ m1 = 0) ∧ v1 + m + 1 = v + m1 ∧
      (if (sem_wait w sem).1 = .ret 0 then 1 else 0) +
        (settle (sem_wait w sem).2 sem 0).kernel.resumed + m1 = w.kernel.resumed + m + 1 ∧
      w.kernel.resumed ≤ (settle (sem_wait w sem).2 sem 0).kernel.resumed := by
  obtain ⟨hpos, hzero⟩ := wait_step w sem _ h0 hok
  dsimp only at hpos hzero
  by_cases hv : 1 ≤ v
  · obtain ⟨hr, hs0, hres⟩ := hpos hv
    have hm : m = 0 := by omega
    subst hm
    obtain ⟨hs1, hres1⟩ := settle_spec (sem_wait w sem).2 sem _ hs0
    rw [hres] at hres1
    dsimp only at hs1 hres1
    refine ⟨v - 1, 0, ?_, Or.inr rfl, by omega, ?_, ?_⟩
    · rw [hs1]
      simp [grant]
    · rw [hres1, hr]
      simp [grant]
      omega
    · rw [hres1]
      omega
  · have hv0 : v = 0 := by omega
    subst hv0
    obtain ⟨hr, hs0, hres⟩ := hzero rfl
    obtain ⟨hs1, hres1⟩ := settle_spec (sem_wait w sem).2 sem _ hs0
    rw [hres] at hres1
    dsimp only at hs1 hres1
    have hrep : List.replicate m 1 ++ [1] = List.replicate (m + 1) 1 := by
      rw [List.replicate_succ']
    rw [hrep, grant_zero_ones] at hs1 hres1
    refine ⟨0, m + 1, ?_, Or.inl rfl, by omega, ?_, ?_⟩
    · rw [hs1]
      simp
    · rw [hres1, hr]
      simp
      omega
    · rw [hres1]
      omega

/-- Conservation of units along a run of `sem_post` and `sem_wait` calls none
of which fails: the count less the sleepers moves by posts less waits, and
every wait issued was granted at once, was resumed later, or is still
asleep. -/
theorem conservation (sem : Int) (calls : List Call) :
    ∀ (w : World) (v m : Nat),
      sem0 w.kernel sem = some ⟨v, List.replicate m 1, 0⟩ → (v = 0 ∨ m = 0) →
      (∀ c ∈ calls, c = .post ∨ c = .wait) →
      (∀ o ∈ (runSettled w sem calls).1, o ≠ .ret (-1)) →
      ∃ v1 m1, sem0 (runSettled w sem calls).2.kernel sem
          = some ⟨v1, List.replicate m1 1, 0⟩ ∧
        (v1 = 0 ∨ m1 = 0) ∧
        v1 + m + calls.count .wait = v + m1 + calls.count .post ∧
        grantedAtOnce calls (runSettled w sem calls).1 +
          (runSettled w sem calls).2.kernel.resumed + m1
          = w.kernel.resumed + m + calls.count .wait ∧
        w.kernel.resumed ≤ (runSettled w sem calls).2.kernel.resumed := by
  induction calls with
  | nil =>
    intro w v m h0 hvm _ _
    exact ⟨v, m, h0, hvm, by simp, by simp [runSettled, grantedAtOnce], by simp [runSettled]⟩
  | cons c cs ih =>
    intro w v m h0 hvm hcalls hok
    have hc := hcalls c (List.mem_cons_self _ _)
    have hcs : ∀ c1 ∈ cs, c1 = .post ∨ c1 = .wait :=
      fun c1 h => hcalls c1 (List.mem_cons_of_mem _ h)
    simp only [runSettled] at hok ⊢
    have hok1 : (c.run w sem).1 ≠ .ret (-1) := hok _ (List.mem_cons_self _ _)
    have hok2 : ∀ o ∈ (runSettled (settle (c.run w sem).2 sem 0) sem cs).1, o ≠ .ret (-1) :=
      fun o h => hok o (List.mem_cons_of_mem _ h)
    rcases hc with rfl | rfl
    · have e1 : Call.post.run w sem = sem_post w sem := rfl
      rw [e1] at hok1 hok2 ⊢
      obtain ⟨v1, m1, hs1, hvm1, hbal1, hres1, hmono1⟩ := post_settle w sem v m h0 hvm hok1
      obtain ⟨v2, m2, hs2, hvm2, hbal2, hres2, hmono2⟩ :=
        ih (settle (sem_post w sem).2 sem 0) v1 m1 hs1 hvm1 hcs hok2
      have hcw : (Call.post :: cs).count .wait = cs.count .wait := by simp [List.count_cons]
      have hcp : (Call.post :: cs).count .post = cs.count .post + 1 := by simp
      have hg : grantedAtOnce (Call.post :: cs)
          ((sem_post w sem).1 :: (runSettled (settle (sem_post w sem).2 sem 0) sem cs).1)
          = grantedAtOnce cs (runSettled (settle (sem_post w sem).2 sem 0) sem cs).1 := by
        simp [grantedAtOnce]
      refine ⟨v2, m2, hs2, hvm2, ?_, ?_, by omega⟩
      · rw [hcw, hcp]
        omega
      · rw [hcw, hg]
        omega
    · have e1 : Call.wait.run w sem = sem_wait w sem := rfl
      rw [e1] at hok1 hok2 ⊢
      obtain ⟨v1, m1, hs1, hvm1, hbal1, hres1, hmono1⟩ := wait_settle w sem v m h0 hvm hok1
      obtain ⟨v2, m2, hs2, hvm2, hbal2, hres2, hmono2⟩ :=
        ih (settle (sem_wait w sem).2 sem 0) v1 m1 hs1 hvm1 hcs hok2
      have hcw : (Call.wait :: cs).count .wait = cs.count .wait + 1 := by simp
      have hcp : (Call.wait :: cs).count .post = cs.count .post := by simp [List.count_cons]
      have hg : grantedAtOnce (Call.wait :: cs)
          ((sem_wait w sem).1 :: (runSettled (settle (sem_wait w sem).2 sem 0) sem cs).1)
          = (if (sem_wait w sem).1 = .ret 0 then 1 else 0) +
            grantedAtOnce cs (runSettled (settle (sem_wait w sem).2 sem 0) sem cs).1 := by
        simp [grantedAtOnce]
      refine ⟨v2, m2, hs2, hvm2, ?_, ?_, by omega⟩
      · rw [hcw, hcp]
        omega
      · rw [hcw, hg]
        omega

/-- Every `semop` call consumes one entry of the pending outside failures. -/
theorem semop_faults (w : World) (semid : Int) (sop : sembuf) :
    (semop w semid sop).2.faults = w.faults.tail := by
  unfold semop World.enter
  dsimp only
  repeat' split
  all_goals rfl

/-- No `semop` call changes the kernel's limit on semaphore values. -/
theorem semop_semvmx (w : World) (semid : Int) (sop : sembuf) :
    (semop w semid sop).2.kernel.semvmx = w.kernel.semvmx := by
  unfold semop World.enter
  dsimp only
  repeat' split
  all_goals rfl

theorem settle_faults (w : World) (semid : Int) (semnum : Nat) :
    (settle w semid semnum).faults = w.faults := by
  unfold settle
  repeat' split
  all_goals rfl

theorem settle_semvmx (w : World) (semid : Int) (semnum : Nat) :
    (settle w semid semnum).kernel.semvmx = w.kernel.semvmx := by
  unfold settle
  repeat' split
  all_goals rfl

/-- With no outside failure pending, `sem_wait` on an active handle does not
fail: it takes a unit or puts the caller to sleep. -/
theorem wait_ok (w : World) (sem : Int) (x : Sem) (h0 : sem0 w.kernel sem = some x)
    (hp : w.pending = none) : (sem_wait w sem).1 ≠ .ret (-1) := by
  obtain ⟨s, hs, hx⟩ := sem0_some _ _ _ h0
  rw [sem_wait_eq]
  have h1 : ¬ (0 : Int) < -1 := by decide
  have h2 : (-1 : Int) < 0 := by decide
  have h4 : hasFlag 0 IPC_NOWAIT = false := by decide
  unfold semop World.enter
  dsimp only
  simp only [hp, hs, hx, h1, h2, h4, if_true, if_false]
  split <;> simp

/-- With no outside failure pending, `sem_post` on an active handle whose
count is below the kernel's maximum does not fail. -/
theorem post_ok (w : World) (sem : Int) (x : Sem) (h0 : sem0 w.kernel sem = some x)
    (hp : w.pending = none) (hv : x.semval + 1 ≤ w.kernel.semvmx) :
    (sem_post w sem).1 ≠ .ret (-1) := by
  obtain ⟨s, hs, hx⟩ := sem0_some _ _ _ h0
  rw [sem_post_eq, ((semop_post_spec w sem s x hs hx).1).2 ⟨hp, hv⟩]
  simp

/-- A run of `sem_post` and `sem_wait` calls meets no failure when no outside
failure is pending and the count cannot pass the kernel's maximum, that is
when the starting count plus the number of posts is at most `SEMVMX`. -/
theorem runSettled_no_failure (sem : Int) (calls : List Call) :
    ∀ (w : World) (v m : Nat),
      sem0 w.kernel sem = some ⟨v, List.replicate m 1, 0⟩ → (v = 0 ∨ m = 0) →
      (∀ c ∈ calls, c = .post ∨ c = .wait) →
      w.faults = [] → v + calls.count .post ≤ w.kernel.semvmx →
      ∀ o ∈ (runSettled w sem calls).1, o ≠ .ret (-1) := by
  induction calls with
  | nil =>
    intro w v m _ _ _ _ _ o ho
    simp [runSettled] at ho
  | cons c cs ih =>
    intro w v m h0 hvm hcalls hf hbound o ho
    have hc := hcalls c (List.mem_cons_self _ _)
    have hcs : ∀ c1 ∈ cs, c1 = .post ∨ c1 = .wait :=
      fun c1 h => hcalls c1 (List.mem_cons_of_mem _ h)
    have hp := pending_of_no_faults w hf
    simp only [runSettled, List.mem_cons] at ho
    rcases hc with rfl | rfl
    · have e1 : Call.post.run w sem = sem_post w sem := rfl
      rw [e1] at ho
      have hcp : (Call.post :: cs).count .post = cs.count .post + 1 := by simp
      rw [hcp] at hbound
      have hok1 : (sem_post w sem).1 ≠ .ret (-1) := post_ok w sem _ h0 hp (by simp; omega)
      rcases ho with ho | ho
      · rw [ho]; exact hok1
      · obtain ⟨v1, m1, hs1, hvm1, hbal1, -, -⟩ := post_settle w sem v m h0 hvm hok1
        refine ih (settle (sem_post w sem).2 sem 0) v1 m1 hs1 hvm1 hcs ?_ ?_ o ho
        · rw [settle_faults, sem_post_eq, semop_faults, hf]
          rfl
        · rw [settle_semvmx, sem_post_eq, semop_semvmx]
          omega
    · have e1 : Call.wait.run w sem = sem_wait w sem := rfl
      rw [e1] at ho
      have hcp : (Call.wait :: cs).count .post = cs.count .post := by simp [List.count_cons]
      rw [hcp] at hbound
      have hok1 : (sem_wait w sem).1 ≠ .ret (-1) := wait_ok w sem _ h0 hp
      rcases ho with ho | ho
      · rw [ho]; exact hok1
      · obtain ⟨v1, m1, hs1, hvm1, hbal1, -, -⟩ := wait_settle w sem v m h0 hvm hok1
        refine ih (settle (sem_wait w sem).2 sem 0) v1 m1 hs1 hvm1 hcs ?_ ?_ o ho
        · rw [settle_faults, sem_wait_eq, semop_faults, hf]
          rfl
        · rw [settle_semvmx, sem_wait_eq, semop_semvmx]
          omega

theorem lookup_append_new (k : Kernel) (t : SemSet) :
    lookup { k with sets := k.sets ++ [some t] } (k.sets.length : Int) = some t := by
  simp [lookup]

/-- An exclusive create under a key no live set has, with room in the table
and no outside failure pending: a new set with one semaphore of value 0 is
appended and its identifier returned. -/
theorem semget_create_spec (w : World) (key : Int)
    (hp : w.pending = none) (hfresh : findKey key w.kernel.sets = none)
    (hroom : liveCount w.kernel.sets < w.kernel.semmni) :
    semget w key 1 (IPC_CREAT ||| IPC_EXCL ||| 0o666) =
      ((w.kernel.sets.length : Int),
        { w.enter (.semget key 1 (IPC_CREAT ||| IPC_EXCL ||| 0o666)) with
          kernel := { w.kernel with
            sets := w.kernel.sets ++ [some { key := key, sems := [⟨0, [], 0⟩] }] } }) := by
  have hflag : hasFlag (IPC_CREAT ||| IPC_EXCL ||| 0o666) IPC_CREAT = true := by decide
  have hroom1 : ¬ w.kernel.semmni ≤ liveCount w.kernel.sets := by omega
  unfold semget createSet World.enter
  dsimp only
  simp only [hp, hfresh, hflag, if_true, hroom1, if_false]
  split <;> simp [List.replicate]

/-- A `SETVAL` within `0 .. SEMVMX` on semaphore 0 of a live set, with no
outside failure pending: the value is set and 0 returned. -/
theorem semctl_setval_spec (w : World) (semid : Int) (s : SemSet) (x : Sem) (arg : Int)
    (hp : w.pending = none) (hs : lookup w.kernel semid = some s) (hx : s.sems[0]? = some x)
    (h0 : 0 ≤ arg) (hmax : arg ≤ (w.kernel.semvmx : Int)) :
    semctl w semid 0 SETVAL arg =
      (0, { w.enter (.semctl semid 0 SETVAL arg) with
            kernel := w.kernel.putSem semid s 0 { x with semval := arg.toNat } }) := by
  have hcmd : ¬ SETVAL = IPC_RMID := by decide
  have hr : ¬ (arg < 0 ∨ (w.kernel.semvmx : Int) < arg) := by omega
  unfold semctl World.enter
  dsimp only
  simp only [hp, hs, hcmd, if_false, if_true, lt_self_iff_false, Int.toNat_zero, hx, hr]

/-- The outcome of `sem_init` on a fresh key, with room in the table, no
outside failure pending and a value the kernel accepts. -/
theorem sem_init_fresh_spec (w : World) (sem pshared : Int) (n : Nat)
    (hf : w.faults = [])
    (hfresh : findKey (sem_init_key w) w.kernel.sets = none)
    (hroom : liveCount w.kernel.sets < w.kernel.semmni)
    (hn : n ≤ w.kernel.semvmx) (hmax : n ≤ SEM_VALUE_MAX) :
    (sem_init w sem pshared n).1 = 0 ∧
    (sem_init w sem pshared n).2.1 = (w.kernel.sets.length : Int) ∧
    (sem_init w sem pshared n).2.2.faults = [] ∧
    sem0 (sem_init w sem pshared n).2.2.kernel (w.kernel.sets.length : Int)
      = some ⟨n, [], 0⟩ := by
  have hmax1 : n ≤ 2147483647 := hmax
  have hu : toUInt32 n = n := by unfold toUInt32; omega
  have hi : toInt32 (n : Int) = (n : Int) := by unfold toInt32; split <;> omega
  have hchk : sem_init_checked w n = w := by
    unfold sem_init_checked
    rw [hu, if_neg (by unfold SEM_VALUE_MAX INT_MAX; omega)]
  have hc : createCall w n = ((w.kernel.sets.length : Int),
      { w.enter (.semget (sem_init_key w) 1 (IPC_CREAT ||| IPC_EXCL ||| 0o666)) with
        kernel := { w.kernel with sets := w.kernel.sets ++
          [some { key := sem_init_key w, sems := [⟨0, [], 0⟩] }] } }) := by
    unfold createCall
    rw [hchk]
    exact semget_create_spec w _ (pending_of_no_faults w hf) hfresh hroom
  have hsc : setCall w n = (0,
      { (createCall w n).2.enter (.semctl (w.kernel.sets.length : Int) 0 SETVAL (n : Int)) with
        kernel := (createCall w n).2.kernel.putSem (w.kernel.sets.length : Int)
          { key := sem_init_key w, sems := [⟨0, [], 0⟩] } 0 ⟨n, [], 0⟩ }) := by
    unfold setCall
    rw [hu, hi]
    have hp1 : (createCall w n).2.pending = none := by
      rw [hc]
      simp [World.pending, World.enter, hf]
    have hl1 : lookup (createCall w n).2.kernel (w.kernel.sets.length : Int)
        = some { key := sem_init_key w, sems := [⟨0, [], 0⟩] } := by
      rw [hc]
      exact lookup_append_new w.kernel _
    have hv1 : ((n : Int)) ≤ ((createCall w n).2.kernel.semvmx : Int) := by
      rw [hc]
      show (n : Int) ≤ (w.kernel.semvmx : Int)
      omega
    have hfst : (createCall w n).1 = (w.kernel.sets.length : Int) := by rw [hc]
    rw [hfst]
    have := semctl_setval_spec (createCall w n).2 (w.kernel.sets.length : Int) _ ⟨0, [], 0⟩
      (n : Int) hp1 hl1 rfl (by omega) hv1
    simpa using this
  have hne : ¬ ((createCall w n).1 = -1 ∧ (createCall w n).2.errno = EEXIST) := by
    rw [hc]
    intro h
    have := h.1
    simp only at this
    omega
  have hs1 : (setCall w n).1 = 0 := by rw [hsc]
  have hfst : (createCall w n).1 = (w.kernel.sets.length : Int) := by rw [hc]
  have hinit : sem_init w sem pshared n =
      (0, (w.kernel.sets.length : Int), (setCall w n).2) := by
    rw [sem_init_eq, if_neg hne, if_neg (by rw [hs1]; decide), hs1, hfst]
  rw [hinit, hsc]
  refine ⟨rfl, rfl, ?_, ?_⟩
  · rw [hc]
    simp [World.enter, hf]
  · have hl1 : lookup (createCall w n).2.kernel (w.kernel.sets.length : Int)
        = some { key := sem_init_key w, sems := [⟨0, [], 0⟩] } := by
      rw [hc]
      exact lookup_append_new w.kernel _
    exact sem0_putSem _ _ _ ⟨0, [], 0⟩ _ hl1 rfl

/-- Draining a semaphore: `n + 1` calls of `sem_trywait` at count `n`, with no
outside failure pending: `n` successes, then a failure, count 0. -/
theorem trywait_drain (sem : Int) (m : Nat) :
    ∀ w : World, w.faults = [] → semval w.kernel sem 0 = some m →
      (runCalls w sem (List.replicate (m + 1) .trywait)).1
        = List.replicate m (.ret 0) ++ [.ret (-1)] ∧
      semval (runCalls w sem (List.replicate (m + 1) .trywait)).2.kernel sem 0 = some 0 := by
  induction m with
  | zero =>
    intro w _ hv
    obtain ⟨s, x, hs, hx, hx0⟩ := semval_eq_some _ _ _ _ hv
    have hr : (sem_trywait w sem).1 = .ret (-1) := by
      rw [sem_trywait_eq]
      exact semop_dec_zero w sem s x hs hx hx0
    have hk : (sem_trywait w sem).2.kernel = w.kernel := by
      rw [sem_trywait_eq] at hr ⊢
      exact semop_fail_kernel w sem _ hr
    simp only [List.replicate, runCalls, Call.run, hr, hk, hv, List.nil_append, and_self]
  | succ m ih =>
    intro w hf hv
    obtain ⟨s, x, hs, hx, hxv⟩ := semval_eq_some _ _ _ _ hv
    obtain ⟨h1, h2, h3⟩ := semop_dec_spec w sem s x IPC_NOWAIT hs hx
      (pending_of_no_faults w hf) (by omega)
    rw [← sem_trywait_eq] at h1 h2 h3
    have hf1 : (sem_trywait w sem).2.faults = [] := by rw [h3, hf]; rfl
    have hv1 : semval (sem_trywait w sem).2.kernel sem 0 = some m := by
      rw [h2, semval_putSem_same _ _ _ x _ hs hx]
      simp [hxv]
    obtain ⟨ih1, ih2⟩ := ih (sem_trywait w sem).2 hf1 hv1
    have hrun : runCalls w sem (List.replicate (m + 1 + 1) .trywait) =
        ((sem_trywait w sem).1 ::
          (runCalls (sem_trywait w sem).2 sem (List.replicate (m + 1) .trywait)).1,
         (runCalls (sem_trywait w sem).2 sem (List.replicate (m + 1) .trywait)).2) := by
      rw [List.replicate_succ]
      rfl
    rw [hrun]
    refine ⟨?_, ih2⟩
    show (sem_trywait w sem).1 :: _ = _
    rw [h1, ih1, List.replicate_succ]
    rfl

theorem runCalls_head (w : World) (sem : Int) (n : Nat) (c : Call) :
    (runCalls w sem (List.replicate (n + 1) c)).1.head? = some (c.run w sem).1 := by
  rw [List.replicate_succ]
  rfl

theorem replicate_append_head (n : Nat) (a b : Outcome) :
    (List.replicate (n + 1) a ++ [b]).head? = some a := by
  rw [List.replicate_succ]
  rfl

/-- The kernel calls neither read nor write `stderr`: `semget`. -/
theorem semget_stderr (w : World) (e : List (String × Int)) (key : Int) (nsems semflg : Nat) :
    semget { w with stderr := e } key nsems semflg =
      ((semget w key nsems semflg).1, { (semget w key nsems semflg).2 with stderr := e }) := by
  unfold semget createSet World.fail World.enter World.pending
  dsimp only
  repeat' split
  all_goals rfl

/-- The kernel calls neither read nor write `stderr`: `semctl`. -/
theorem semctl_stderr (w : World) (e : List (String × Int)) (semid semnum : Int) (cmd : Nat)
    (arg : Int) :
    semctl { w with stderr := e } semid semnum cmd arg =
      ((semctl w semid semnum cmd arg).1,
        { (semctl w semid semnum cmd arg).2 with stderr := e }) := by
  unfold semctl World.fail World.enter World.pending
  dsimp only
  repeat' split
  all_goals rfl

theorem semget_stderr_same (w : World) (key : Int) (nsems semflg : Nat) :
    (semget w key nsems semflg).2.stderr = w.stderr := by
  unfold semget createSet World.fail World.enter
  dsimp only
  repeat' split
  all_goals rfl

theorem semctl_stderr_same (w : World) (semid semnum : Int) (cmd : Nat) (arg : Int) :
    (semctl w semid semnum cmd arg).2.stderr = w.stderr := by
  unfold semctl World.fail World.enter
  dsimp only
  repeat' split
  all_goals rfl

/-! ## The claims -/

/-- C1. `sem_init` on a fresh key: when the exclusive create succeeds with
handle `h` and the `SETVAL` call succeeds, `sem_init` returns 0, `*sem` is
`h`, and semaphore 0 of resource `h` holds `value`. -/
theorem C1_sem_init_fresh (w : World) (sem pshared : Int) (value : Nat)
    (hv : value < 4294967296)
    (hcreate : (createCall w value).1 ≠ -1)
    (hset : (setCall w value).1 ≠ -1) :
    (sem_init w sem pshared value).1 = 0 ∧
    (sem_init w sem pshared value).2.1 = (createCall w value).1 ∧
    semval (sem_init w sem pshared value).2.2.kernel (createCall w value).1 0 = some value := by
  have hr : (setCall w value).1 = 0 := by
    rcases semctl_ret (createCall w value).2 (createCall w value).1 0 SETVAL
      (toInt32 (toUInt32 value)) with h | h
    · exact h
    · exact absurd h hset
  have hok := semctl_setval_ok (createCall w value).2 (createCall w value).1
    (toInt32 (toUInt32 value)) hset
  have hval : toUInt32 value = value := by unfold toUInt32; omega
  have hcount : semval (setCall w value).2.kernel (createCall w value).1 0
      = some (toInt32 (toUInt32 value)).toNat := hok.2
  rw [toInt32_toUInt32 value hok.1, hval] at hcount
  have hinit : sem_init w sem pshared value = (0, (createCall w value).1, (setCall w value).2) := by
    rw [sem_init_eq, if_neg (fun h => hcreate h.1), if_neg hset, hr]
  rw [hinit]
  exact ⟨rfl, rfl, hcount⟩

/-- C1, on a kernel that is empty at boot: creating with value 5 succeeds. -/
theorem C1_sem_init_fresh_witness :
    (sem_init (boot 1700000000) 7 0 5).1 = 0 ∧
    (sem_init (boot 1700000000) 7 0 5).2.1 = (createCall (boot 1700000000) 5).1 ∧
    semval (sem_init (boot 1700000000) 7 0 5).2.2.kernel (createCall (boot 1700000000) 5).1 0
      = some 5 :=
  C1_sem_init_fresh (boot 1700000000) 7 0 5 (by decide) (by decide) (by decide)

/-- C2 as stated fails for a value the kernel does not accept: on an empty
kernel with the limits of Linux, `sem_init` with 32768 (one above `SEMVMX`)
or with 2^31 (above `INT_MAX`) creates the set, fails in `SETVAL` and
returns -1, and the first `sem_trywait` on the handle already returns -1. -/
theorem C2_counterexample :
    ((sem_init (boot 1700000000) 7 0 32768).1 = -1 ∧
      (runCalls (sem_init (boot 1700000000) 7 0 32768).2.2
          (sem_init (boot 1700000000) 7 0 32768).2.1 (List.replicate (32768 + 1) .trywait)).1
        ≠ List.replicate 32768 (.ret 0) ++ [.ret (-1)]) ∧
    ((sem_init (boot 1700000000) 7 0 2147483648).1 = -1 ∧
      (runCalls (sem_init (boot 1700000000) 7 0 2147483648).2.2
          (sem_init (boot 1700000000) 7 0 2147483648).2.1
          (List.replicate (2147483648 + 1) .trywait)).1
        ≠ List.replicate 2147483648 (.ret 0) ++ [.ret (-1)]) := by
  refine ⟨⟨by decide, ?_⟩, ⟨by decide, ?_⟩⟩
  · intro h
    have h1 := congrArg List.head? h
    rw [runCalls_head, replicate_append_head 32767] at h1
    exact absurd h1 (by decide)
  · intro h
    have h1 := congrArg List.head? h
    rw [runCalls_head, replicate_append_head 2147483647] at h1
    exact absurd h1 (by decide)

/-- C2, amended. For every `n` the kernel's set-count accepts (`n ≤ SEMVMX`
and `n ≤ INT_MAX`), `sem_init(n)` on a fresh key, with room in the table and
no outside failure pending, returns 0, and of the `n + 1` `sem_trywait`
calls issued next on the handle the first `n` return 0 and the last returns
-1, leaving the count at 0. -/
theorem C2_init_then_trywait (w : World) (sem pshared : Int) (n : Nat)
    (hf : w.faults = [])
    (hfresh : findKey (sem_init_key w) w.kernel.sets = none)
    (hroom : liveCount w.kernel.sets < w.kernel.semmni)
    (hn : n ≤ w.kernel.semvmx) (hmax : n ≤ SEM_VALUE_MAX) :
    (sem_init w sem pshared n).1 = 0 ∧
    (runCalls (sem_init w sem pshared n).2.2 (sem_init w sem pshared n).2.1
        (List.replicate (n + 1) .trywait)).1
      = List.replicate n (.ret 0) ++ [.ret (-1)] ∧
    semval (runCalls (sem_init w sem pshared n).2.2 (sem_init w sem pshared n).2.1
        (List.replicate (n + 1) .trywait)).2.kernel (sem_init w sem pshared n).2.1 0
      = some 0 := by
  obtain ⟨h1, h2, h3, h4⟩ := sem_init_fresh_spec w sem pshared n hf hfresh hroom hn hmax
  have hv := semval_of_sem0 _ _ _ h4
  rw [h2]
  exact ⟨h1, trywait_drain _ n _ h3 hv⟩

/-- C2, amended, at `n = 3` on an empty kernel. -/
theorem C2_init_then_trywait_witness :
    (sem_init (boot 1700000000) 7 0 3).1 = 0 ∧
    (runCalls (sem_init (boot 1700000000) 7 0 3).2.2 (sem_init (boot 1700000000) 7 0 3).2.1
        (List.replicate (3 + 1) .trywait)).1
      = List.replicate 3 (.ret 0) ++ [.ret (-1)] ∧
    semval (runCalls (sem_init (boot 1700000000) 7 0 3).2.2
        (sem_init (boot 1700000000) 7 0 3).2.1
        (List.replicate (3 + 1) .trywait)).2.kernel (sem_init (boot 1700000000) 7 0 3).2.1 0
      = some 0 :=
  C2_init_then_trywait (boot 1700000000) 7 0 3 (by decide) (by decide) (by decide)
    (by decide) (by decide)

/-- C3 as stated fails at a count equal to the kernel's maximum: starting
from 32767 with nobody asleep, one `sem_post` followed by one `sem_wait`
(k = 1) sees the post refused with -1 and the wait granted, and ends at
32766, not at the starting count. -/
theorem C3_counterexample :
    sem0 fullWorld.kernel 0 = some ⟨32767, [], 0⟩ ∧
    (runSettled fullWorld 0 [.post, .wait]).1 = [.ret (-1), .ret 0] ∧
    sem0 (runSettled fullWorld 0 [.post, .wait]).2.kernel 0 = some ⟨32766, [], 0⟩ ∧
    sem0 (runSettled fullWorld 0 [.post, .wait]).2.kernel 0 ≠ sem0 fullWorld.kernel 0 := by
  decide

/-- C3, amended. No unit is lost or granted twice: starting from count `c`
with nobody asleep, along any ordering of `k` `sem_post` and `k` `sem_wait`
calls on one active handle none of which returns -1 (a wait issued at count
0 sleeps and is resumed after a later post), exactly `k` waits have returned
0 when the `2k` calls are over (at once, or resumed by the kernel, a resumed
`sem_wait` returning 0), nobody is left asleep, and the count is `c` again.
No call returns -1 whenever no outside failure is pending and `c + k` is at
most the kernel's `SEMVMX`. -/
theorem C3_units_conserved (w : World) (sem : Int) (c k : Nat) (calls : List Call)
    (h0 : sem0 w.kernel sem = some ⟨c, [], 0⟩)
    (hcalls : ∀ x ∈ calls, x = .post ∨ x = .wait)
    (hpost : calls.count .post = k) (hwait : calls.count .wait = k) :
    ((w.faults = [] ∧ c + k ≤ w.kernel.semvmx) →
      ∀ o ∈ (runSettled w sem calls).1, o ≠ .ret (-1)) ∧
    ((∀ o ∈ (runSettled w sem calls).1, o ≠ .ret (-1)) →
      grantedAtOnce calls (runSettled w sem calls).1 +
          ((runSettled w sem calls).2.kernel.resumed - w.kernel.resumed) = k ∧
      w.kernel.resumed ≤ (runSettled w sem calls).2.kernel.resumed ∧
      sem_wait_resumed 0 = 0 ∧
      sem0 (runSettled w sem calls).2.kernel sem = some ⟨c, [], 0⟩) := by
  have h0r : sem0 w.kernel sem = some ⟨c, List.replicate 0 1, 0⟩ := by simpa using h0
  refine ⟨?_, ?_⟩
  · rintro ⟨hf, hb⟩
    exact runSettled_no_failure sem calls w c 0 h0r (Or.inr rfl) hcalls hf (by rw [hpost]; exact hb)
  · intro hok
    obtain ⟨v1, m1, hs, hvm, hbal, hres, hmono⟩ :=
      conservation sem calls w c 0 h0r (Or.inr rfl) hcalls hok
    rw [hpost, hwait] at hbal
    rw [hwait] at hres
    have hm : m1 = 0 := by omega
    have hv : v1 = c := by omega
    subst hm hv
    refine ⟨by omega, by omega, by decide, ?_⟩
    simpa using hs

/-- C3, amended, at `c = 1` with the ordering wait, post, wait, post, and at
`c = 0` with a wait that sleeps until the post after it. -/
theorem C3_units_conserved_witness :
    (grantedAtOnce [.wait, .post, .wait, .post]
        (runSettled oneWorld 0 [.wait, .post, .wait, .post]).1 +
        ((runSettled oneWorld 0 [.wait, .post, .wait, .post]).2.kernel.resumed
          - oneWorld.kernel.resumed) = 2 ∧
      oneWorld.kernel.resumed
        ≤ (runSettled oneWorld 0 [.wait, .post, .wait, .post]).2.kernel.resumed ∧
      sem_wait_resumed 0 = 0 ∧
      sem0 (runSettled oneWorld 0 [.wait, .post, .wait, .post]).2.kernel 0
        = some ⟨1, [], 0⟩) ∧
    (grantedAtOnce [.wait, .post] (runSettled zeroWorld 0 [.wait, .post]).1 +
        ((runSettled zeroWorld 0 [.wait, .post]).2.kernel.resumed
          - zeroWorld.kernel.resumed) = 1 ∧
      zeroWorld.kernel.resumed ≤ (runSettled zeroWorld 0 [.wait, .post]).2.kernel.resumed ∧
      sem_wait_resumed 0 = 0 ∧
      sem0 (runSettled zeroWorld 0 [.wait, .post]).2.kernel 0 = some ⟨0, [], 0⟩) :=
  have h1 := C3_units_conserved oneWorld 0 1 2 [.wait, .post, .wait, .post]
      (by decide) (by decide) (by decide) (by decide)
  have h2 := C3_units_conserved zeroWorld 0 0 1 [.wait, .post]
      (by decide) (by decide) (by decide) (by decide)
  ⟨h1.2 (h1.1 ⟨by decide, by decide⟩), h2.2 (h2.1 ⟨by decide, by decide⟩)⟩

/-- C4. `sem_post` on an active handle whose count is `n` issues exactly one
adjust of +1 on semaphore 0 and has no bound of its own: whatever `n` is, it
returns 0 exactly when the kernel carries the adjust out (no outside failure
pending and `n + 1` within the kernel's `SEMVMX`; `SEM_VALUE_MAX` plays no
part), it returns -1 exactly when the kernel's `semop` does, and on success
the count is `n + 1` and the kernel differs in that one value only. -/
theorem C4_sem_post_no_bound (w : World) (sem : Int) (s : SemSet) (x : Sem) (n : Nat)
    (hs : lookup w.kernel sem = some s) (hx : s.sems[0]? = some x) (hn : x.semval = n) :
    (sem_post w sem).2.trace = w.trace ++ [.semop sem 0 1 0] ∧
    ((sem_post w sem).1 = .ret 0 ↔
      (semop w sem { sem_num := 0, sem_op := 1, sem_flg := 0 }).1 = .ret 0) ∧
    ((sem_post w sem).1 = .ret (-1) ↔
      (semop w sem { sem_num := 0, sem_op := 1, sem_flg := 0 }).1 = .ret (-1)) ∧
    ((sem_post w sem).1 = .ret 0 ↔ (w.pending = none ∧ n + 1 ≤ w.kernel.semvmx)) ∧
    ((sem_post w sem).1 = .ret 0 →
      semval (sem_post w sem).2.kernel sem 0 = some (n + 1) ∧
      (sem_post w sem).2.kernel = w.kernel.putSem sem s 0 { x with semval := n + 1 }) := by
  have hspec := semop_post_spec w sem s x hs hx
  rw [sem_post_eq, hn] at *
  refine ⟨semop_trace w sem _, Iff.rfl, Iff.rfl, hspec.1, ?_⟩
  intro hok
  have hk := hspec.2 hok
  refine ⟨?_, hk⟩
  rw [hk]
  exact semval_putSem_same w.kernel sem s x _ hs hx

/-- C4 at a count of `SEM_VALUE_MAX`: the post is carried out and the count
is `SEM_VALUE_MAX + 1`. -/
theorem C4_sem_post_no_bound_witness :
    (sem_post wideWorld 0).1 = .ret 0 ∧
    semval (sem_post wideWorld 0).2.kernel 0 0 = some (SEM_VALUE_MAX + 1) ∧
    (sem_post wideWorld 0).2.trace = wideWorld.trace ++ [.semop 0 0 1 0] :=
  have h := C4_sem_post_no_bound wideWorld 0
    { key := 1700000000, sems := [⟨2147483647, [], 0⟩] } ⟨2147483647, [], 0⟩ 2147483647
    (by decide) (by decide) (by decide)
  ⟨by decide, (h.2.2.2.2 (by decide)).1, h.1⟩

/-- C5. After `sem_destroy` on a handle has returned 0, every call issued on
that handle afterwards (`sem_wait`, `sem_trywait`, `sem_post`, `sem_destroy`,
in any number and order, no `sem_init` in between) returns -1. -/
theorem C5_use_after_destroy (w : World) (sem : Int) (calls : List Call)
    (hd : (sem_destroy w sem).1 = 0) :
    (runCalls (sem_destroy w sem).2 sem calls).1 = List.replicate calls.length (.ret (-1)) := by
  have hdead : lookup (sem_destroy w sem).2.kernel sem = none := by
    have h0 : (semctl w sem 0 IPC_RMID 0).1 = 0 := by
      unfold sem_destroy at hd
      dsimp only at hd
      split at hd <;> exact hd
    have := semctl_rmid_ok w sem 0 0 h0
    unfold sem_destroy
    dsimp only
    split <;> exact this
  generalize (sem_destroy w sem).2 = w1 at hdead
  clear hd
  induction calls generalizing w1 with
  | nil => rfl
  | cons c cs ih =>
    have hstep : (c.run w1 sem).1 = .ret (-1) ∧ (c.run w1 sem).2.kernel = w1.kernel := by
      cases c with
      | wait => unfold Call.run; rw [sem_wait_eq]; exact semop_dead w1 sem _ hdead
      | trywait => unfold Call.run; rw [sem_trywait_eq]; exact semop_dead w1 sem _ hdead
      | post => unfold Call.run; rw [sem_post_eq]; exact semop_dead w1 sem _ hdead
      | destroy =>
        have h1 := semctl_dead w1 sem 0 IPC_RMID 0 hdead
        have h2 := semctl_fail_kernel w1 sem 0 IPC_RMID 0 h1
        unfold Call.run sem_destroy
        dsimp only
        rw [if_pos h1]
        exact ⟨by rw [h1], h2⟩
    have hnext := ih (c.run w1 sem).2 (by rw [hstep.2]; exact hdead)
    simp only [runCalls, List.length_cons, List.replicate_succ, hstep.1, hnext]

/-- C5 on a semaphore created at boot and destroyed: a wait, a trywait, a
post and a second destroy all return -1. -/
theorem C5_use_after_destroy_witness :
    (sem_destroy attachWorld 0).1 = 0 ∧
    (runCalls (sem_destroy attachWorld 0).2 0 [.wait, .trywait, .post, .destroy]).1 =
      [.ret (-1), .ret (-1), .ret (-1), .ret (-1)] :=
  ⟨by decide, C5_use_after_destroy attachWorld 0 [.wait, .trywait, .post, .destroy] (by decide)⟩

/-- C6, the code at an existing key: the exclusive create fails with
already-exists, the follow-up open succeeds with handle 0, and `sem_init`
nevertheless returns -1 and leaves `*sem` at its old content 9. -/
theorem C6_attach_reports_failure :
    (createCall attachWorld 5).1 = -1 ∧ (createCall attachWorld 5).2.errno = EEXIST ∧
    (openCall attachWorld 5).1 = 0 ∧
    (sem_init attachWorld 9 0 5).1 = -1 ∧ (sem_init attachWorld 9 0 5).2.1 = 9 := by
  decide

/-- C7. `sem_init` returns a negative value (1) when the exclusive create
fails for a reason other than already-exists (the code then still issues the
set-count on handle -1, which the kernel rejects), (2) when the create fails
with already-exists and the follow-up open fails too, (3) when the create
succeeds and the `SETVAL` step fails. -/
theorem C7_sem_init_errors (w : World) (sem pshared : Int) (value : Nat) :
    ((createCall w value).1 = -1 ∧ (createCall w value).2.errno ≠ EEXIST →
      (sem_init w sem pshared value).1 < 0 ∧
      Syscall.semctl (-1) 0 SETVAL (toInt32 (toUInt32 value))
        ∈ (sem_init w sem pshared value).2.2.trace) ∧
    ((createCall w value).1 = -1 ∧ (createCall w value).2.errno = EEXIST ∧
      (openCall w value).1 < 0 → (sem_init w sem pshared value).1 < 0) ∧
    ((createCall w value).1 ≠ -1 ∧ (setCall w value).1 = -1 →
      (sem_init w sem pshared value).1 < 0) := by
  refine ⟨?_, ?_, ?_⟩
  · rintro ⟨hc, he⟩
    have hset : (setCall w value).1 = -1 := by
      unfold setCall
      rw [hc]
      exact semctl_dead _ _ _ _ _ (lookup_neg_one _)
    have htr : (setCall w value).2.trace = (createCall w value).2.trace ++
        [.semctl (-1) 0 SETVAL (toInt32 (toUInt32 value))] := by
      unfold setCall
      rw [hc]
      exact semctl_trace _ _ _ _ _
    rw [sem_init_eq, if_neg (fun h => he h.2), if_pos hset]
    refine ⟨by show (-1 : Int) < 0; decide, ?_⟩
    show _ ∈ (setCall w value).2.trace
    rw [htr]
    simp
  · rintro ⟨hc, he, ho⟩
    rw [sem_init_eq, if_pos ⟨hc, he⟩, if_pos ho]
    exact ho
  · rintro ⟨hc, hset⟩
    rw [sem_init_eq, if_neg (fun h => hc h.1), if_pos hset]
    show (-1 : Int) < 0
    decide

/-- C7 at three worlds: a create refused for lack of memory, an existing set
whose open is refused, and a value beyond the kernel's maximum. -/
theorem C7_sem_init_errors_witness :
    ((sem_init { boot 1700000000 with faults := [some ENOMEM] } 7 0 5).1 < 0 ∧
      Syscall.semctl (-1) 0 SETVAL (toInt32 (toUInt32 5))
        ∈ (sem_init { boot 1700000000 with faults := [some ENOMEM] } 7 0 5).2.2.trace) ∧
    (sem_init { attachWorld with faults := [none, some EACCES] } 7 0 5).1 < 0 ∧
    (sem_init (boot 1700000000) 7 0 40000).1 < 0 :=
  ⟨(C7_sem_init_errors { boot 1700000000 with faults := [some ENOMEM] } 7 0 5).1
      ⟨by decide, by decide⟩,
    (C7_sem_init_errors { attachWorld with faults := [none, some EACCES] } 7 0 5).2.1
      ⟨by decide, by decide, by decide⟩,
    (C7_sem_init_errors (boot 1700000000) 7 0 40000).2.2 ⟨by decide, by decide⟩⟩

/-- C8. Attaching does not reset the count: when a live resource under the
derived key has count `m` and the exclusive create of `sem_init(v)` fails
with already-exists, the count is still `m` after `sem_init`, whether or not
the follow-up open succeeds, and the only kernel calls issued are the two
`semget` calls (no set-count). -/
theorem C8_attach_keeps_count (w : World) (sem pshared : Int) (v : Nat)
    (i : Nat) (s : SemSet) (x : Sem) (m : Nat)
    (hkey : findKey (sem_init_key w) w.kernel.sets = some (i, s))
    (hx : s.sems[0]? = some x) (hm : x.semval = m)
    (hexist : (createCall w v).1 = -1 ∧ (createCall w v).2.errno = EEXIST) :
    semval (sem_init w sem pshared v).2.2.kernel i 0 = some m ∧
    (sem_init w sem pshared v).2.2.trace = w.trace ++
      [.semget (sem_init_key w) 1 (IPC_CREAT ||| IPC_EXCL ||| 0o666),
       .semget (sem_init_key w) 1 0] := by
  have hl0 : lookup w.kernel (i : Int) = some s := by
    simp [lookup, findKey_lookup _ _ _ _ hkey]
  have hl1 : lookup (createCall w v).2.kernel (i : Int) = some s := by
    unfold createCall
    apply semget_lookup
    unfold sem_init_checked exception_handling
    split <;> exact hl0
  have hl2 : lookup (openCall w v).2.kernel (i : Int) = some s := by
    unfold openCall
    exact semget_lookup _ _ _ _ _ _ hl1
  have ht1 : (createCall w v).2.trace = w.trace ++
      [.semget (sem_init_key w) 1 (IPC_CREAT ||| IPC_EXCL ||| 0o666)] := by
    unfold createCall
    rw [semget_trace]
    unfold sem_init_checked exception_handling
    split <;> rfl
  have ht2 : (openCall w v).2.trace = (createCall w v).2.trace ++
      [.semget (sem_init_key w) 1 0] := by
    unfold openCall
    exact semget_trace _ _ _ _
  have hw : (sem_init w sem pshared v).2.2 =
      printf (openCall w v).2 "Resourse already in use\n" := by
    rw [sem_init_eq, if_pos hexist]
    split <;> rfl
  rw [hw]
  refine ⟨?_, ?_⟩
  · show semval (openCall w v).2.kernel i 0 = some m
    simp [semval, hl2, hx, hm]
  · show (openCall w v).2.trace = _
    rw [ht2, ht1]
    simp

/-- C8 at an existing set with count 3, once with the open succeeding and
once with the open refused. -/
theorem C8_attach_keeps_count_witness :
    (semval (sem_init attachWorld 9 0 5).2.2.kernel (0 : Nat) 0 = some 3 ∧
      (sem_init attachWorld 9 0 5).2.2.trace = attachWorld.trace ++
        [.semget (sem_init_key attachWorld) 1 (IPC_CREAT ||| IPC_EXCL ||| 0o666),
         .semget (sem_init_key attachWorld) 1 0]) ∧
    (semval (sem_init { attachWorld with faults := [none, some EACCES] } 9 0 5).2.2.kernel
        (0 : Nat) 0 = some 3 ∧
      (sem_init { attachWorld with faults := [none, some EACCES] } 9 0 5).2.2.trace =
        attachWorld.trace ++
        [.semget (sem_init_key attachWorld) 1 (IPC_CREAT ||| IPC_EXCL ||| 0o666),
         .semget (sem_init_key attachWorld) 1 0]) :=
  ⟨C8_attach_keeps_count attachWorld 9 0 5 0
      { key := 1700000000, sems := [⟨3, [], 0⟩] } ⟨3, [], 0⟩ 3
      (by decide) (by decide) (by decide) ⟨by decide, by decide⟩,
    C8_attach_keeps_count { attachWorld with faults := [none, some EACCES] } 9 0 5 0
      { key := 1700000000, sems := [⟨3, [], 0⟩] } ⟨3, [], 0⟩ 3
      (by decide) (by decide) (by decide) ⟨by decide, by decide⟩⟩

/-- C9. A failed decrement is atomic: whatever the kernel state and the
handle, when `sem_wait` or `sem_trywait` returns -1 the count of every
semaphore is what it was before the call, also when the -1 comes from a
`sem_wait` that slept and was interrupted; `sem_trywait` never puts the
caller to sleep, and on an active handle whose count is 0 it returns -1. -/
theorem C9_failed_decrement_atomic (w : World) (sem : Int) :
    ((sem_wait w sem).1 = .ret (-1) →
      ∀ semid semnum,
        semval (sem_wait w sem).2.kernel semid semnum = semval w.kernel semid semnum) ∧
    ((sem_wait w sem).1 = .suspended →
      sem_wait_resumed (-1) = -1 ∧
      ∀ semid semnum,
        semval (interrupt (sem_wait w sem).2 sem 0).kernel semid semnum
          = semval w.kernel semid semnum) ∧
    ((sem_trywait w sem).1 = .ret (-1) →
      ∀ semid semnum,
        semval (sem_trywait w sem).2.kernel semid semnum = semval w.kernel semid semnum) ∧
    (sem_trywait w sem).1 ≠ .suspended ∧
    (semval w.kernel sem 0 = some 0 → (sem_trywait w sem).1 = .ret (-1)) := by
  rw [sem_wait_eq, sem_trywait_eq]
  refine ⟨?_, ?_, ?_, ?_, ?_⟩
  · intro h semid semnum
    rw [semop_fail_kernel w sem _ h]
  · intro h
    refine ⟨by decide, ?_⟩
    intro semid semnum
    rw [interrupt_semval]
    exact semop_sleep_semval w sem _ h semid semnum
  · intro h semid semnum
    rw [semop_fail_kernel w sem _ h]
  · exact semop_nowait w sem _ (Or.inl (by decide))
  · intro h
    obtain ⟨s, x, hs, hx, hv⟩ := semval_eq_some _ _ _ _ h
    exact semop_dec_zero w sem s x hs hx hv

/-- C9 at a semaphore of count 0 (`sem_trywait` fails, count still 0; a
`sem_wait` sleeps and is interrupted, count still 0), and at a `sem_wait`
refused from outside on a semaphore of count 3. -/
theorem C9_failed_decrement_atomic_witness :
    (sem_trywait zeroWorld 0).1 = .ret (-1) ∧
    semval (sem_trywait zeroWorld 0).2.kernel 0 0 = semval zeroWorld.kernel 0 0 ∧
    semval (interrupt (sem_wait zeroWorld 0).2 0 0).kernel 0 0 = semval zeroWorld.kernel 0 0 ∧
    semval (sem_wait { attachWorld with faults := [some EINTR] } 0).2.kernel 0 0 = some 3 :=
  ⟨(C9_failed_decrement_atomic zeroWorld 0).2.2.2.2 (by decide),
   (C9_failed_decrement_atomic zeroWorld 0).2.2.1 (by decide) 0 0,
   ((C9_failed_decrement_atomic zeroWorld 0).2.1 (by decide)).2 0 0,
   ((C9_failed_decrement_atomic { attachWorld with faults := [some EINTR] } 0).1
      (by decide) 0 0).trans (by decide)⟩

/-- C10. The range check of `sem_init` is advisory only: for a value above
`SEM_VALUE_MAX` the out-of-bound line is written to `stderr` first, and the
call then returns the same value, leaves the same `*sem`, the same kernel,
`errno`, `stdout` and the same log of kernel calls as the body without the
check; the two final worlds differ in that one `stderr` line only. -/
theorem C10_range_check_advisory (w : World) (sem pshared : Int) (value : Nat)
    (hgt : toUInt32 value > SEM_VALUE_MAX) :
    ∃ rest : List (String × Int),
      (sem_init_unchecked w sem pshared value).2.2.stderr = w.stderr ++ rest ∧
      sem_init w sem pshared value =
        ((sem_init_unchecked w sem pshared value).1,
         (sem_init_unchecked w sem pshared value).2.1,
         { (sem_init_unchecked w sem pshared value).2.2 with
           stderr := w.stderr ++ ("Error - value out of bound", w.errno) :: rest }) := by
  unfold sem_init sem_init_unchecked
  simp only [hgt, if_true, exception_handling, semget_stderr, semctl_stderr, printf]
  have h1 := semget_stderr_same w (toInt32 (time w)) 1 (IPC_CREAT ||| IPC_EXCL ||| 0o666)
  by_cases hc : (semget w (toInt32 (time w)) 1 (IPC_CREAT ||| IPC_EXCL ||| 0o666)).1 = -1 ∧
      (semget w (toInt32 (time w)) 1 (IPC_CREAT ||| IPC_EXCL ||| 0o666)).2.errno = EEXIST
  · have h2 := semget_stderr_same
      (semget w (toInt32 (time w)) 1 (IPC_CREAT ||| IPC_EXCL ||| 0o666)).2 (toInt32 (time w)) 1 0
    refine ⟨[], ?_, ?_⟩
    · simp only [hc, and_self, if_true]
      split <;> simp [h1, h2]
    · simp only [hc, and_self, if_true]
      split <;> rfl
  · have h2 := semctl_stderr_same
      (semget w (toInt32 (time w)) 1 (IPC_CREAT ||| IPC_EXCL ||| 0o666)).2
      (semget w (toInt32 (time w)) 1 (IPC_CREAT ||| IPC_EXCL ||| 0o666)).1 0 SETVAL
      (toInt32 (toUInt32 value))
    by_cases hs : (semctl (semget w (toInt32 (time w)) 1 (IPC_CREAT ||| IPC_EXCL ||| 0o666)).2
        (semget w (toInt32 (time w)) 1 (IPC_CREAT ||| IPC_EXCL ||| 0o666)).1 0 SETVAL
        (toInt32 (toUInt32 value))).1 = -1
    · refine ⟨[("Error - semctl did not end correctly",
        (semctl (semget w (toInt32 (time w)) 1 (IPC_CREAT ||| IPC_EXCL ||| 0o666)).2
        (semget w (toInt32 (time w)) 1 (IPC_CREAT ||| IPC_EXCL ||| 0o666)).1 0 SETVAL
        (toInt32 (toUInt32 value))).2.errno)], ?_, ?_⟩
      · simp only [hc, if_false, hs, if_true]
        simp [h1, h2]
      · simp only [hc, if_false, hs, if_true]
        simp
    · refine ⟨[], ?_, ?_⟩
      · simp only [hc, if_false, hs]
        simp [h1, h2]
      · simp only [hc, if_false, hs]

/-- C10 at the value 2^31 on an empty kernel. -/
theorem C10_range_check_advisory_witness :
    (toUInt32 2147483648 > SEM_VALUE_MAX ∧
      ∃ rest : List (String × Int),
        (sem_init_unchecked (boot 1700000000) 7 0 2147483648).2.2.stderr
          = (boot 1700000000).stderr ++ rest ∧
        sem_init (boot 1700000000) 7 0 2147483648 =
          ((sem_init_unchecked (boot 1700000000) 7 0 2147483648).1,
           (sem_init_unchecked (boot 1700000000) 7 0 2147483648).2.1,
           { (sem_init_unchecked (boot 1700000000) 7 0 2147483648).2.2 with
             stderr := (boot 1700000000).stderr ++
               ("Error - value out of bound", (boot 1700000000).errno) :: rest })) :=
  ⟨by decide, C10_range_check_advisory (boot 1700000000) 7 0 2147483648 (by decide)⟩

end PosSem
